import Mathlib

/-!
Verification of the invoice-processor repository: a shallow embedding of the
decimal invoice calculator, the response normalizer, the PDF text miner's
printability filter, and the extraction orchestrator, with theorems settling
the specification's claims about them.

Monetary values are shopspring decimals (arbitrary-precision fixed point).
Every value of that type is a rational with a power-of-ten denominator, and
the operations the code uses (Mul, Add, Sub exact; Round half away from
zero; Div rounded to DivisionPrecision = 16 fractional digits) are embedded
as operations on the rationals.
-/

namespace InvSpec

/-- Rounding to an integer, half away from zero: the rounding mode of
shopspring decimal's Round. -/
def roundHAFZ (q : ℚ) : ℤ :=
  if q < 0 then -(⌊-q + 1/2⌋) else ⌊q + 1/2⌋

theorem roundHAFZ_def (q : ℚ) :
    roundHAFZ q = if q < 0 then -(⌊-q + 1/2⌋) else ⌊q + 1/2⌋ :=
  rfl

/-- shopspring Round(p): round to p fractional decimal digits, half away
from zero. -/
def decRound (q : ℚ) (p : ℕ) : ℚ :=
  (roundHAFZ (q * 10 ^ p) : ℚ) / 10 ^ p

/-- shopspring Div: the quotient rounded (half away from zero) to
DivisionPrecision = 16 fractional digits. -/
def decDiv (a b : ℚ) : ℚ :=
  decRound (a / b) 16

/-- Scale predicate: q is a decimal with at most k fractional digits. -/
def Sc (k : ℕ) (q : ℚ) : Prop := ∃ m : ℤ, q * 10 ^ k = (m : ℚ)

theorem roundHAFZ_intCast (m : ℤ) : roundHAFZ (m : ℚ) = m := by
  rw [roundHAFZ_def]
  by_cases h : (m : ℚ) < 0
  · have : ⌊-(m : ℚ) + 1/2⌋ = -m := by
      rw [Int.floor_eq_iff]
      constructor
      · push_cast; linarith
      · push_cast; linarith
    rw [if_pos h, this, neg_neg]
  · have : ⌊(m : ℚ) + 1/2⌋ = m := by
      rw [Int.floor_eq_iff]
      constructor
      · linarith
      · linarith
    rw [if_neg h, this]

theorem decRound_eq_self {q : ℚ} {p : ℕ} (h : Sc p q) : decRound q p = q := by
  obtain ⟨m, hm⟩ := h
  unfold decRound
  rw [hm, roundHAFZ_intCast, ← hm]
  field_simp

theorem decDiv_exact {a b : ℚ} (h : Sc 16 (a / b)) : decDiv a b = a / b :=
  decRound_eq_self h

theorem Sc.mono {k k' : ℕ} {q : ℚ} (h : Sc k q) (hk : k ≤ k') : Sc k' q := by
  obtain ⟨m, hm⟩ := h
  exact ⟨m * 10 ^ (k' - k), by
    push_cast
    rw [← hm, mul_assoc, ← pow_add]
    congr 2
    omega⟩

theorem Sc.add {k : ℕ} {a b : ℚ} (ha : Sc k a) (hb : Sc k b) : Sc k (a + b) := by
  obtain ⟨m, hm⟩ := ha
  obtain ⟨n, hn⟩ := hb
  exact ⟨m + n, by push_cast; rw [add_mul, hm, hn]⟩

theorem Sc.sub {k : ℕ} {a b : ℚ} (ha : Sc k a) (hb : Sc k b) : Sc k (a - b) := by
  obtain ⟨m, hm⟩ := ha
  obtain ⟨n, hn⟩ := hb
  exact ⟨m - n, by push_cast; rw [sub_mul, hm, hn]⟩

theorem Sc.mul {k j : ℕ} {a b : ℚ} (ha : Sc k a) (hb : Sc j b) :
    Sc (k + j) (a * b) := by
  obtain ⟨m, hm⟩ := ha
  obtain ⟨n, hn⟩ := hb
  exact ⟨m * n, by push_cast; rw [pow_add, ← mul_assoc, mul_assoc a b _, mul_comm b _,
    ← mul_assoc, hm, mul_assoc, hn]⟩

theorem Sc.intCast (k : ℕ) (m : ℤ) : Sc k (m : ℚ) :=
  ⟨m * 10 ^ k, by push_cast; ring⟩

theorem Sc.div100 {k : ℕ} {a : ℚ} (h : Sc k a) : Sc (k + 2) (a / 100) := by
  obtain ⟨m, hm⟩ := h
  exact ⟨m, by
    rw [pow_add, ← hm]
    ring_nf⟩

theorem Sc.decRound0 (q : ℚ) : Sc 0 (decRound q 0) := by
  refine ⟨roundHAFZ (q * 10 ^ 0), ?_⟩
  unfold decRound
  norm_num

/-- Decimal with at most k fractional digits rounds at 0 digits the same as
its exact rounding; in particular decDiv agrees with exact division when the
quotient needs at most 16 digits. -/
theorem decRound0_decDiv {a : ℚ} (h : Sc 16 (a / 100)) :
    decRound (decDiv a 100) 0 = decRound (a / 100) 0 := by
  rw [decDiv_exact h]

/-! ## Data model (src/internal/model/invoice.go) -/

/-- Party: seller or buyer record. -/
structure Party where
  name : String := ""
  taxId : String := ""
  address : String := ""
  phone : String := ""
  email : String := ""
  bankAccount : String := ""
  bankName : String := ""
deriving DecidableEq

/-- Model of Go time.Time restricted to the calendar date, which is all the
code reads or writes; the zero time.Time is January 1 of year 1. -/
structure GoDate where
  year : ℕ := 1
  month : ℕ := 1
  day : ℕ := 1
deriving DecidableEq

/-- Signature block, carried opaquely. -/
structure Signature where
  value : String := ""
  signerName : String := ""
  signerPosition : String := ""
  certSerial : String := ""
deriving DecidableEq

/-- LineItem with authoritative inputs (quantity, unitPrice, discount
percent, vatRate) and the derived monetary fields. -/
structure LineItem where
  number : ℤ := 0
  code : String := ""
  name : String := ""
  description : String := ""
  unit : String := ""
  quantity : ℚ := 0
  unitPrice : ℚ := 0
  discount : ℚ := 0
  vatRate : ℤ := 0
  amount : ℚ := 0
  discountAmt : ℚ := 0
  vatAmount : ℚ := 0
  total : ℚ := 0
deriving DecidableEq

/-- Invoice: the canonical output entity. InvoiceType, DocumentType,
Provider and ExtractionMethod are Go string types and are modelled as
strings holding the source's constants. -/
structure Invoice where
  id : String := ""
  number : String := ""
  series : String := ""
  date : GoDate := {}
  type : String := ""
  provider : String := ""
  seller : Party := {}
  buyer : Party := {}
  items : List LineItem := []
  subtotalAmount : ℚ := 0
  taxAmount : ℚ := 0
  totalAmount : ℚ := 0
  currency : String := ""
  exchangeRate : ℚ := 0
  remarks : String := ""
  paymentTerms : String := ""
  documentType : String := ""
  cashier : String := ""
  terminalID : String := ""
  paymentMethod : String := ""
  receiptNumber : String := ""
  receiptTime : String := ""
  amountTendered : ℚ := 0
  change : ℚ := 0
  signature : Option Signature := none
  rawXML : List ℕ := []
  sourceFile : String := ""
deriving DecidableEq

/-! ## Decimal Invoice Calculator (invoice.go lines 137-168) -/

/-- LineItem.Calculate (invoice.go 137-152). Amount = Quantity * UnitPrice;
DiscountAmt is assigned only when Discount is nonzero (the field keeps its
prior value otherwise); VATAmount and Total are rounded to 0 digits. -/
def LineItem.Calculate (li : LineItem) : LineItem :=
  let amount := li.quantity * li.unitPrice
  let discountAmt :=
    if ¬ (li.discount = 0) then decRound (decDiv (amount * li.discount) 100) 0
    else li.discountAmt
  let taxableAmount := amount - discountAmt
  let vatAmount := decRound (decDiv (taxableAmount * (li.vatRate : ℚ)) 100) 0
  let total := decRound (taxableAmount + vatAmount) 0
  { li with amount := amount, discountAmt := discountAmt,
            vatAmount := vatAmount, total := total }

/-- Invoice.CalculateTotals (invoice.go 155-168). Recomputes each line item,
accumulates the exact (unrounded) subtotal and tax sums, then stores their
roundings; TotalAmount rounds the sum of the two unrounded accumulators. -/
def Invoice.CalculateTotals (inv : Invoice) : Invoice :=
  let step := fun (acc : List LineItem × ℚ × ℚ) (it : LineItem) =>
    let c := it.Calculate
    (acc.1 ++ [c], acc.2.1 + (c.amount - c.discountAmt), acc.2.2 + c.vatAmount)
  let r := inv.items.foldl step ([], 0, 0)
  { inv with items := r.1,
             subtotalAmount := decRound r.2.1 0,
             taxAmount := decRound r.2.2 0,
             totalAmount := decRound (r.2.1 + r.2.2) 0 }

/-! ## Helper lemmas for evaluating the calculator -/

theorem decRound_zeroPow (q : ℚ) : decRound q 0 = (roundHAFZ q : ℚ) := by
  unfold decRound
  norm_num

theorem decRound_intCast (m : ℤ) (p : ℕ) : decRound (m : ℚ) p = m :=
  decRound_eq_self (Sc.intCast p m)

theorem decDiv_zero (b : ℚ) : decDiv 0 b = 0 := by
  unfold decDiv
  rw [zero_div]
  exact decRound_intCast 0 16

/-- Closed form of the CalculateTotals fold: it recomputes every item and
accumulates the exact subtotal and tax sums over the recomputed items. -/
theorem CalculateTotals_spec (inv : Invoice) :
    inv.CalculateTotals =
      { inv with
        items := inv.items.map LineItem.Calculate,
        subtotalAmount := decRound
          ((inv.items.map (fun it =>
            it.Calculate.amount - it.Calculate.discountAmt)).sum) 0,
        taxAmount := decRound
          ((inv.items.map (fun it => it.Calculate.vatAmount)).sum) 0,
        totalAmount := decRound
          ((inv.items.map (fun it =>
            it.Calculate.amount - it.Calculate.discountAmt)).sum +
           (inv.items.map (fun it => it.Calculate.vatAmount)).sum) 0 } := by
  unfold Invoice.CalculateTotals
  have key : ∀ (l : List LineItem) (acc : List LineItem × ℚ × ℚ),
      l.foldl (fun acc it =>
        let c := it.Calculate
        (acc.1 ++ [c], acc.2.1 + (c.amount - c.discountAmt),
         acc.2.2 + c.vatAmount)) acc =
      (acc.1 ++ l.map LineItem.Calculate,
       acc.2.1 + (l.map (fun it =>
         it.Calculate.amount - it.Calculate.discountAmt)).sum,
       acc.2.2 + (l.map (fun it => it.Calculate.vatAmount)).sum) := by
    intro l
    induction l with
    | nil => intro acc; simp
    | cons hd tl ih =>
      intro acc
      simp only [List.foldl_cons, List.map_cons, List.sum_cons, ih]
      simp
      constructor
      · ring
      · ring
  simp only [key]
  simp

theorem Calculate_idem (li : LineItem) : li.Calculate.Calculate = li.Calculate := by
  by_cases h : li.discount = 0 <;>
    simp [LineItem.Calculate, h]

/-! ## Claim C1: per-item formulas of LineItem.Calculate -/

/-- The per-item contract, stated with the spec's exact arithmetic: products
and quotients are exact and rounding happens only at the named steps, except
that discountAmount is only assigned when discountPercent is nonzero. -/
def C1Claim (li : LineItem) : Prop :=
  let c := li.Calculate
  c.amount = li.quantity * li.unitPrice ∧
  c.discountAmt =
    (if li.discount = 0 then li.discountAmt
     else decRound (c.amount * li.discount / 100) 0) ∧
  c.vatAmount = decRound ((c.amount - c.discountAmt) * (li.vatRate : ℚ) / 100) 0 ∧
  c.total = decRound ((c.amount - c.discountAmt) + c.vatAmount) 0

/-- Claim C1 (corrected): when discountPercent = 0 the stored discountAmount
is NOT reset to zero; LineItem.Calculate leaves the field's prior value in
place. Here a line item with discount 0 but a stale discountAmount of 7
keeps the 7 after Calculate. -/
theorem C1_counterexample :
    ({ discount := 0, discountAmt := 7 : LineItem }).Calculate.discountAmt = 7 ∧
    (7 : ℚ) ≠ 0 := by
  constructor
  · simp [LineItem.Calculate]
  · norm_num

/-- Claim C1 (amended): for line items whose quantity, unit price, discount
percent and prior discountAmount each have at most 4 fractional digits (so
that shopspring's 16-digit division precision is not reached), Calculate
realizes the spec's formulas exactly, except that a zero discountPercent
leaves discountAmount at its prior value instead of zeroing it. -/
theorem C1_amended (li : LineItem)
    (hq : Sc 4 li.quantity) (hp : Sc 4 li.unitPrice)
    (hd : Sc 4 li.discount) (hda : Sc 4 li.discountAmt) :
    C1Claim li := by
  have hA : Sc 8 (li.quantity * li.unitPrice) := hq.mul hp
  have hAd : Sc 16 (li.quantity * li.unitPrice * li.discount / 100) :=
    ((hA.mul hd).div100).mono (by norm_num)
  unfold C1Claim LineItem.Calculate
  by_cases h : li.discount = 0
  · have hD : Sc 8 li.discountAmt := hda.mono (by norm_num)
    have hT : Sc 8 (li.quantity * li.unitPrice - li.discountAmt) := hA.sub hD
    have hTv : Sc 16 ((li.quantity * li.unitPrice - li.discountAmt) *
        (li.vatRate : ℚ) / 100) :=
      ((hT.mul (Sc.intCast 0 li.vatRate)).div100).mono (by norm_num)
    simp only [h, not_true_eq_false, if_false, ite_false, if_pos, if_true]
    refine ⟨by simp, by simp [h], ?_, ?_⟩
    · simp [h, decDiv_exact hTv]
    · simp [h]
  · have hdiv : decDiv (li.quantity * li.unitPrice * li.discount) 100 =
        li.quantity * li.unitPrice * li.discount / 100 := decDiv_exact hAd
    have hD : Sc 8 (decRound
        (li.quantity * li.unitPrice * li.discount / 100) 0) :=
      (Sc.decRound0 _).mono (by norm_num)
    have hT : Sc 8 (li.quantity * li.unitPrice -
        decRound (li.quantity * li.unitPrice * li.discount / 100) 0) :=
      hA.sub hD
    have hTv : Sc 16 ((li.quantity * li.unitPrice -
        decRound (li.quantity * li.unitPrice * li.discount / 100) 0) *
        (li.vatRate : ℚ) / 100) :=
      ((hT.mul (Sc.intCast 0 li.vatRate)).div100).mono (by norm_num)
    refine ⟨by simp, ?_, ?_, ?_⟩
    · simp [h, hdiv]
    · simp [h, hdiv, decDiv_exact hTv]
    · simp [h]

/-- Witness for C1_amended at a concrete item: quantity 3/2, price 2,
discount 10 percent, VAT 10 percent. -/
theorem C1_amended_witness :
    C1Claim { quantity := 3/2, unitPrice := 2, discount := 10,
              vatRate := 10 : LineItem } :=
  C1_amended _ ⟨15000, by norm_num⟩ ⟨20000, by norm_num⟩
    ⟨100000, by norm_num⟩ ⟨0, by norm_num⟩

/-! ## Claim C2: invoice-level aggregation of CalculateTotals -/

/-- Sufficient conditions for a concrete rounding, nonnegative case. -/
theorem decRound0_eq_of_nonneg {q : ℚ} {m : ℤ} (h0 : 0 ≤ q)
    (h1 : (m : ℚ) ≤ q + 1/2) (h2 : q + 1/2 < m + 1) : decRound q 0 = m := by
  rw [decRound_zeroPow, roundHAFZ_def, if_neg (not_lt.mpr h0)]
  norm_num
  rw [Int.floor_eq_iff]
  exact ⟨h1, by linarith⟩

/-- Sufficient conditions for a concrete rounding, negative case. -/
theorem decRound0_eq_of_neg {q : ℚ} {m : ℤ} (h0 : q < 0)
    (h1 : ((-m : ℤ) : ℚ) ≤ -q + 1/2) (h2 : -q + 1/2 < (-m : ℤ) + 1) :
    decRound q 0 = m := by
  rw [decRound_zeroPow, roundHAFZ_def, if_pos h0]
  have : ⌊-q + 1/2⌋ = -m := by
    rw [Int.floor_eq_iff]
    exact ⟨h1, by push_cast at h2; push_cast; linarith⟩
  rw [this]
  norm_num

/-- Concrete invoice refuting the claim that the grand total rounds the sum
of the already-rounded subtotal and tax: a credit line of -10.5 next to a
taxed line makes the raw subtotal -0.5 while tax is 1. -/
def C2inv : Invoice :=
  { items := [ { quantity := -21/2, unitPrice := 1 },
               { quantity := 10, unitPrice := 1, vatRate := 10 } ] }

theorem C2item1_amount :
    ({ quantity := -21/2, unitPrice := 1 : LineItem }).Calculate.amount
      = -21/2 := by
  simp [LineItem.Calculate]

theorem C2item1_discountAmt :
    ({ quantity := -21/2, unitPrice := 1 : LineItem }).Calculate.discountAmt
      = 0 := by
  simp [LineItem.Calculate]

theorem decRound_zero_zero : decRound (0 : ℚ) 0 = 0 := by
  simpa using decRound_intCast 0 0

theorem decRound_one_zero : decRound (1 : ℚ) 0 = 1 := by
  simpa using decRound_intCast 1 0

theorem C2item1_vatAmount :
    ({ quantity := -21/2, unitPrice := 1 : LineItem }).Calculate.vatAmount
      = 0 := by
  simp only [LineItem.Calculate]
  norm_num [decDiv_zero, decRound_zero_zero]

theorem C2item2_amount :
    ({ quantity := 10, unitPrice := 1, vatRate := 10 : LineItem
     }).Calculate.amount = 10 := by
  simp [LineItem.Calculate]

theorem C2item2_discountAmt :
    ({ quantity := 10, unitPrice := 1, vatRate := 10 : LineItem
     }).Calculate.discountAmt = 0 := by
  simp [LineItem.Calculate]

theorem C2item2_vatAmount :
    ({ quantity := 10, unitPrice := 1, vatRate := 10 : LineItem
     }).Calculate.vatAmount = 1 := by
  simp only [LineItem.Calculate]
  norm_num
  have h : decDiv (100 : ℚ) 100 = 1 := by
    rw [decDiv_exact ⟨10 ^ 16, by norm_num⟩]
    norm_num
  rw [h, decRound_one_zero]

/-- Claim C2 (corrected): TotalAmount is the rounding of the sum of the
UNROUNDED accumulators, which differs from rounding the stored (rounded)
subtotal and tax: on C2inv the stored fields are subtotal -1 and tax 1 with
grand total 1, yet round(-1 + 1) = 0. -/
theorem C2_counterexample :
    C2inv.CalculateTotals.totalAmount ≠
      decRound (C2inv.CalculateTotals.subtotalAmount +
                C2inv.CalculateTotals.taxAmount) 0 ∧
    C2inv.CalculateTotals.subtotalAmount = -1 ∧
    C2inv.CalculateTotals.taxAmount = 1 ∧
    C2inv.CalculateTotals.totalAmount = 1 := by
  have hsub : C2inv.CalculateTotals.subtotalAmount = -1 := by
    rw [CalculateTotals_spec]
    simp only [C2inv, List.map_cons, List.map_nil, List.sum_cons, List.sum_nil,
      C2item1_amount, C2item1_discountAmt, C2item2_amount, C2item2_discountAmt]
    apply decRound0_eq_of_neg <;> norm_num
  have htax : C2inv.CalculateTotals.taxAmount = 1 := by
    rw [CalculateTotals_spec]
    simp only [C2inv, List.map_cons, List.map_nil, List.sum_cons, List.sum_nil,
      C2item1_vatAmount, C2item2_vatAmount]
    apply decRound0_eq_of_nonneg <;> norm_num
  have htot : C2inv.CalculateTotals.totalAmount = 1 := by
    rw [CalculateTotals_spec]
    simp only [C2inv, List.map_cons, List.map_nil, List.sum_cons, List.sum_nil,
      C2item1_amount, C2item1_discountAmt, C2item2_amount, C2item2_discountAmt,
      C2item1_vatAmount, C2item2_vatAmount]
    apply decRound0_eq_of_nonneg <;> norm_num
  refine ⟨?_, hsub, htax, htot⟩
  rw [hsub, htax, htot]
  have : decRound ((-1 : ℚ) + 1) 0 = 0 := by
    apply decRound0_eq_of_nonneg <;> norm_num
  rw [this]
  norm_num

/-- Claim C2 (amended): CalculateTotals recomputes every line item and then
stores subtotal = round(S, 0), tax = round(T, 0) and total = round(S + T, 0)
where S and T are the exact, unrounded accumulated sums; the grand total
rounds the raw sum, not the sum of the already-rounded fields. -/
theorem C2_amended (inv : Invoice) :
    inv.CalculateTotals.items = inv.items.map LineItem.Calculate ∧
    inv.CalculateTotals.subtotalAmount = decRound
      ((inv.items.map (fun it =>
        it.Calculate.amount - it.Calculate.discountAmt)).sum) 0 ∧
    inv.CalculateTotals.taxAmount = decRound
      ((inv.items.map (fun it => it.Calculate.vatAmount)).sum) 0 ∧
    inv.CalculateTotals.totalAmount = decRound
      ((inv.items.map (fun it =>
        it.Calculate.amount - it.Calculate.discountAmt)).sum +
       (inv.items.map (fun it => it.Calculate.vatAmount)).sum) 0 := by
  rw [CalculateTotals_spec]
  exact ⟨rfl, rfl, rfl, rfl⟩

/-! ## Claim C8: the Calculator is idempotent -/

/-- Claim C8 (confirmed): running CalculateTotals on its own output changes
nothing; line items are stable under a second Calculate and the three
invoice totals recompute to the same values. -/
theorem C8_CalculateTotals_idem (inv : Invoice) :
    inv.CalculateTotals.CalculateTotals = inv.CalculateTotals := by
  have hmap : (inv.items.map LineItem.Calculate).map LineItem.Calculate
      = inv.items.map LineItem.Calculate := by
    rw [List.map_map]
    exact List.map_congr_left (fun it _ => Calculate_idem it)
  have hf : ∀ (f : LineItem → ℚ),
      ((inv.items.map LineItem.Calculate).map (fun it => f it.Calculate)).sum
      = (inv.items.map (fun it => f it.Calculate)).sum := by
    intro f
    rw [List.map_map]
    congr 1
    exact List.map_congr_left (fun it _ => by
      simp only [Function.comp_apply, Calculate_idem])
  rw [CalculateTotals_spec inv, CalculateTotals_spec]
  simp only [hmap]
  congr 1
  · rw [hf (fun c => c.amount - c.discountAmt)]
  · rw [hf (fun c => c.vatAmount)]
  · rw [hf (fun c => c.amount - c.discountAmt), hf (fun c => c.vatAmount)]

/-! ## Format detection (pipeline.go lines 254-293) -/

/-- Format enumeration of DetectFormat. -/
inductive Format where
  | unknown
  | xml
  | pdf
  | image
deriving DecidableEq

/-- Bytes of the string %PDF. -/
def pdfMagic : List ℕ := [37, 80, 68, 70]

/-- Bytes of the string that opens an XML declaration. -/
def xmlDecl : List ℕ := [60, 63, 120, 109, 108]

/-- Substring test of the contains helper (pipeline.go 318-325): some tail
of s starts with sub. -/
def goContains : List ℕ → List ℕ → Bool
  | s, sub =>
    sub.isPrefixOf s ||
      match s with
      | [] => false
      | _ :: t => goContains t sub

/-- Image magic-byte tests the code performs on data[0..3], written exactly
as in the source: PNG, JPEG (first three bytes), TIFF little endian, TIFF
big endian. -/
def hasImageMagic (data : List ℕ) : Bool :=
  match data with
  | b0 :: b1 :: b2 :: b3 :: _ =>
    (b0 == 0x89 && b1 == 0x50 && b2 == 0x4E && b3 == 0x47) ||
    (b0 == 0xFF && b1 == 0xD8 && b2 == 0xFF) ||
    (b0 == 0x49 && b1 == 0x49 && b2 == 0x2A && b3 == 0x00) ||
    (b0 == 0x4D && b1 == 0x4D && b2 == 0x00 && b3 == 0x2A)
  | _ => false

/-- DetectFormat (pipeline.go 254-293): empty input unknown; the XML test
runs only when more than 5 bytes are present and looks at the first 100
bytes; then the PDF magic; then, only when at least 8 bytes are present,
the image magics. -/
def DetectFormat (data : List ℕ) : Format :=
  if data.length = 0 then Format.unknown
  else if data.length > 5 ∧
      ((data.take 100).head? = some 60 ∨
        goContains (data.take 100) xmlDecl = true) then Format.xml
  else if 4 ≤ data.length ∧ data.take 4 = pdfMagic then Format.pdf
  else if 8 ≤ data.length ∧ hasImageMagic data = true then Format.image
  else Format.unknown

/-- Classification following the amended claim's words: empty input is
unknown; an input LONGER THAN FIVE BYTES whose first byte is the less-than
sign or that carries the XML declaration in its first 100 bytes is xml;
an input whose first four bytes read %PDF is pdf; an input OF AT LEAST
EIGHT BYTES opening with a PNG, JPEG or TIFF magic is image; anything else
is unknown. -/
def specDetectFormat (data : List ℕ) : Format :=
  if data = [] then Format.unknown
  else if 5 < data.length ∧
      (data.head? = some 60 ∨ goContains (data.take 100) xmlDecl = true) then
    Format.xml
  else if data.take 4 = pdfMagic then Format.pdf
  else if 8 ≤ data.length ∧
      (data.take 4 = [0x89, 0x50, 0x4E, 0x47] ∨
       data.take 3 = [0xFF, 0xD8, 0xFF] ∨
       data.take 4 = [0x49, 0x49, 0x2A, 0x00] ∨
       data.take 4 = [0x4D, 0x4D, 0x00, 0x2A]) then Format.image
  else Format.unknown

theorem take100_head (data : List ℕ) : (data.take 100).head? = data.head? := by
  cases data <;> rfl

/-- Claim C7 (corrected): a four-byte XML fragment starting with the
less-than sign is NOT classified xml; the XML test requires more than five
bytes, so the bytes of "<a/>" yield unknown. -/
theorem C7_counterexample :
    DetectFormat [60, 97, 47, 62] = Format.unknown ∧
    Format.unknown ≠ Format.xml := by
  constructor
  · decide
  · decide

/-- Claim C7 (amended): DetectFormat classifies exactly as stated, with the
length provisos the code imposes: the XML rule fires only for inputs longer
than 5 bytes, and the image rule only for inputs of at least 8 bytes, so
short XML fragments and truncated images come back unknown. -/
theorem C7_amended (data : List ℕ) :
    DetectFormat data = specDetectFormat data := by
  unfold DetectFormat specDetectFormat
  apply if_congr (by simp) rfl
  apply if_congr (by rw [take100_head]) rfl
  apply if_congr ?hpdf rfl ?himg
  case hpdf =>
    constructor
    · rintro ⟨h4, ht⟩
      exact ht
    · intro h
      refine ⟨?_, h⟩
      have : (data.take 4).length = 4 := by rw [h]; rfl
      simp only [List.length_take] at this
      omega
  case himg =>
    apply if_congr ?hmag rfl rfl
    case hmag =>
      rcases data with _ | ⟨b0, _ | ⟨b1, _ | ⟨b2, _ | ⟨b3, rest⟩⟩⟩⟩
      · constructor <;> (rintro ⟨h8, -⟩; simp at h8)
      · constructor <;> (rintro ⟨h8, -⟩; simp at h8)
      · constructor <;> (rintro ⟨h8, -⟩; simp at h8)
      · constructor <;> (rintro ⟨h8, -⟩; simp at h8)
      · apply and_congr_right
        intro h8
        simp only [hasImageMagic, Bool.or_eq_true, Bool.and_eq_true,
          beq_iff_eq, List.take_succ_cons, List.take_zero, List.cons.injEq,
          and_true]
        tauto

/-! ## Printability filter (part_000 isPrintableText, lines 496-511) -/

/-- Number of bytes of the UTF-8 encoding of a rune, as Go encodes valid
unicode scalar values. -/
def goUTF8Size (c : Char) : ℕ :=
  if c.toNat < 0x80 then 1
  else if c.toNat < 0x800 then 2
  else if c.toNat < 0x10000 then 3
  else 4

/-- UTF-8 byte length of a Go string given as its rune sequence; this is
what len(s) returns in Go. -/
def utf8Len (s : List Char) : ℕ := (s.map goUTF8Size).sum

/-- Membership in the allow-list of the source: ASCII letters, digits,
space, the five punctuation marks, Latin Extended (U+00C0 to U+024F) and
the Vietnamese range (U+1E00 to U+1EFF). -/
def isPrintableRune (r : Char) : Bool :=
  decide (('a' ≤ r ∧ r ≤ 'z') ∨ ('A' ≤ r ∧ r ≤ 'Z') ∨
    ('0' ≤ r ∧ r ≤ '9') ∨ r = ' ' ∨ r = '.' ∨
    r = ',' ∨ r = ':' ∨ r = '-' ∨ r = '/' ∨
    (0xC0 ≤ r.toNat ∧ r.toNat ≤ 0x24F) ∨
    (0x1E00 ≤ r.toNat ∧ r.toNat ≤ 0x1EFF))

/-- isPrintableText: the loop counts runes in the allow-list, but the
denominator len(s) is the BYTE length of the string; the float comparison
printable/len > 0.5 is exactly 2*printable > len for any realistic length
(both operands are below 2^53, where float64 division is exact enough for
the strict comparison against the representable 0.5). -/
def isPrintableText (s : List Char) : Bool :=
  if s.length = 0 then false
  else decide (2 * (s.filter isPrintableRune).length > utf8Len s)

/-- Claim C6 (corrected): the ratio is runes over BYTES, not over
characters. Three copies of the two-byte rune U+00C0 are all printable, so
the per-character ratio is 1 and the claim says retained, but the code
computes 3/6 = 0.5 which does not exceed 0.5 and drops the string. -/
theorem C6_counterexample :
    isPrintableText [Char.ofNat 0xC0, Char.ofNat 0xC0, Char.ofNat 0xC0]
      = false ∧
    2 * (([Char.ofNat 0xC0, Char.ofNat 0xC0,
          Char.ofNat 0xC0]).filter isPrintableRune).length >
      ([Char.ofNat 0xC0, Char.ofNat 0xC0, Char.ofNat 0xC0]).length := by
  constructor
  · decide
  · decide

/-- Ten-byte example with four printable bytes of the claim. -/
def tenByteExample : List Char :=
  ['a', 'b', 'c', '1'] ++ List.replicate 6 (Char.ofNat 1)

/-- Claim C6 (amended): a decoded candidate is retained exactly when its
printable rune count exceeds half its UTF-8 BYTE length (for pure ASCII
this coincides with the claimed per-character ratio); the claim's two
concrete examples behave as stated. -/
theorem C6_amended :
    (∀ s : List Char, isPrintableText s = true ↔
      ((s.filter isPrintableRune).length : ℚ) > (1/2) * (utf8Len s : ℚ)) ∧
    isPrintableText "Hello, 123".toList = true ∧
    isPrintableText tenByteExample = false := by
  refine ⟨?_, by decide, by decide⟩
  intro s
  unfold isPrintableText
  by_cases hs : s.length = 0
  · rw [if_pos hs]
    rw [List.length_eq_zero] at hs
    subst hs
    simp [utf8Len]
  · rw [if_neg hs, decide_eq_true_eq]
    have hcast : (utf8Len s : ℚ) < 2 * ((s.filter isPrintableRune).length : ℚ)
        ↔ utf8Len s < 2 * (s.filter isPrintableRune).length := by
      exact_mod_cast Iff.rfl
    constructor
    · intro h
      have := hcast.mpr (by omega)
      linarith
    · intro h
      have := hcast.mp (by linarith)
      omega

/-! ## Extraction orchestrator (pipeline.go lines 91-251)

The two stages call external collaborators: the PDF miner's ExtractBytes,
the model-backed ExtractFromOCRText and ExtractFromImage, and the
rasterizer ConvertToImages. Those calls are IO; their outcomes enter the
embedding as oracle parameters, and the orchestrator's branching over the
outcomes is transcribed from the source. The guards that precede the
two-stage core (nil llmExtractor, reader failure, no data) return early in
the source; the claims quantify over inputs that reach the core. -/

/-- Mined-text value returned by the PDF miner; rawText is the only field
the orchestrator reads (pipeline.go 175). -/
structure ExtractedText where
  rawText : String := ""
deriving DecidableEq

/-- Result (pipeline.go 24-30): Method is a Go string type with zero value
empty; Confidence is a float64 assigned only the constants 0.85, 0.80 and
1.0, embedded as the equal rationals. -/
structure Result where
  invoice : Option Invoice := none
  method : String := ""
  confidence : ℚ := 0
  warnings : List String := []
  error : Option String := none
deriving DecidableEq

/-- detectImageMimeType (pipeline.go 236-251). -/
def detectImageMimeType (data : List ℕ) : String :=
  if 3 ≤ data.length ∧ data.take 3 = [0xFF, 0xD8, 0xFF] then "image/jpeg"
  else if 4 ≤ data.length ∧ data.take 4 = [0x89, 0x50, 0x4E, 0x47] then
    "image/png"
  else "image/jpeg"

/-- Go renders a nil error as the text nil in angle brackets; errors are
embedded as their message strings. -/
def goErrV : Option String → String
  | none => "<nil>"
  | some s => s

/-- tryLLMTextExtraction (pipeline.go 165-196), with the miner outcome and
the model call as oracles. -/
def tryLLMTextExtraction (extractRes : Except String ExtractedText)
    (llmOCR : String → Except String Invoice) : Result :=
  match extractRes with
  | Except.error e =>
    { error := some e, warnings := ["PDF text extraction failed: " ++ e] }
  | Except.ok extracted =>
    if extracted.rawText = "" then
      { error := some "no text extracted from PDF",
        warnings := ["PDF contains no extractable text"] }
    else
      match llmOCR extracted.rawText with
      | Except.error e =>
        { error := some e, warnings := ["LLM text extraction failed: " ++ e] }
      | Except.ok invoice =>
        { invoice := some invoice, method := "llm_text", confidence := 85/100 }

/-- Shared tail of the vision stage: the single model call on the chosen
image bytes and mime type (pipeline.go 220-233). -/
def visionCallLLM (llmVision : List ℕ → String → Except String Invoice)
    (imageData : List ℕ) (imageMimeType : String) : Result :=
  match llmVision imageData imageMimeType with
  | Except.error e =>
    { error := some e, warnings := ["LLM vision extraction failed: " ++ e] }
  | Except.ok invoice =>
    { invoice := some invoice, method := "llm_vision", confidence := 80/100 }

/-- tryLLMVisionExtraction (pipeline.go 198-233). ConvertToImages never
returns an empty list on success (part_000 lines 662-666), so taking the
head with a default models images[0]. -/
def tryLLMVisionExtraction (convertRes : Except String (List (List ℕ)))
    (llmVision : List ℕ → String → Except String Invoice)
    (data : List ℕ) (mimeType : String) : Result :=
  if mimeType = "application/pdf" ∨
      (4 ≤ data.length ∧ data.take 4 = pdfMagic) then
    match convertRes with
    | Except.error e =>
      { error := some ("failed to convert PDF to images: " ++ e),
        warnings := ["PDF to image conversion failed: " ++ e] }
    | Except.ok images =>
      let imageData := images.headD []
      let imageMimeType := detectImageMimeType imageData
      visionCallLLM llmVision imageData imageMimeType
  else
    visionCallLLM llmVision data mimeType

/-- ProcessPDF (pipeline.go 117-151): text stage first, short-circuit on
its success; vision stage as fallback; composite error and concatenated
warnings when both fail. -/
def ProcessPDF (extractRes : Except String ExtractedText)
    (llmOCR : String → Except String Invoice)
    (convertRes : Except String (List (List ℕ)))
    (llmVision : List ℕ → String → Except String Invoice)
    (pdfData : List ℕ) (mimeType : String) : Result :=
  let textResult := tryLLMTextExtraction extractRes llmOCR
  if textResult.invoice.isSome ∧ textResult.error = none then textResult
  else
    let visionResult :=
      tryLLMVisionExtraction convertRes llmVision pdfData mimeType
    if visionResult.invoice.isSome then visionResult
    else
      let warnings := textResult.warnings ++
        (if visionResult.error ≠ none then visionResult.warnings else [])
      if visionResult.error ≠ none then
        { warnings := warnings,
          error := some ("PDF extraction failed (text: " ++
            goErrV textResult.error ++ ", vision: " ++
            goErrV visionResult.error ++ ")") }
      else if textResult.error ≠ none then
        { warnings := textResult.warnings,
          error := some ("PDF extraction failed: " ++
            goErrV textResult.error) }
      else
        { error := some "PDF extraction failed" }

/-- A vision-stage result carrying an invoice is the success record:
method llm_vision, confidence 0.80, no warnings, no error. -/
theorem tryVision_success_shape {convertRes llmVision data mimeType inv}
    (h : (tryLLMVisionExtraction convertRes llmVision data mimeType).invoice
      = some inv) :
    tryLLMVisionExtraction convertRes llmVision data mimeType =
      { invoice := some inv, method := "llm_vision", confidence := 80/100 } := by
  by_cases hc : mimeType = "application/pdf" ∨
      (4 ≤ data.length ∧ data.take 4 = pdfMagic)
  · cases convertRes with
    | error e => simp [tryLLMVisionExtraction, hc, visionCallLLM] at h
    | ok images =>
      cases hv : llmVision (images.head?.getD [])
          (detectImageMimeType (images.head?.getD [])) with
      | error e => simp [tryLLMVisionExtraction, hc, visionCallLLM, hv] at h
      | ok inv2 =>
        simp [tryLLMVisionExtraction, hc, visionCallLLM, hv] at h
        simp [tryLLMVisionExtraction, hc, visionCallLLM, hv, h]
  · cases hv : llmVision data mimeType with
    | error e => simp [tryLLMVisionExtraction, hc, visionCallLLM, hv] at h
    | ok inv2 =>
      simp [tryLLMVisionExtraction, hc, visionCallLLM, hv] at h
      simp [tryLLMVisionExtraction, hc, visionCallLLM, hv, h]

/-- A failed text stage always records an error and a warning. -/
theorem tryText_fail_shape {extractRes llmOCR}
    (h : (tryLLMTextExtraction extractRes llmOCR).invoice = none) :
    (∃ e, (tryLLMTextExtraction extractRes llmOCR).error = some e) ∧
    (tryLLMTextExtraction extractRes llmOCR).warnings ≠ [] := by
  cases extractRes with
  | error e =>
    refine ⟨⟨e, ?_⟩, ?_⟩ <;> simp [tryLLMTextExtraction]
  | ok extracted =>
    by_cases hraw : extracted.rawText = ""
    · refine ⟨⟨"no text extracted from PDF", ?_⟩, ?_⟩ <;>
        simp [tryLLMTextExtraction, hraw]
    · cases hllm : llmOCR extracted.rawText with
      | error e =>
        refine ⟨⟨e, ?_⟩, ?_⟩ <;> simp [tryLLMTextExtraction, hraw, hllm]
      | ok inv =>
        exfalso
        simp [tryLLMTextExtraction, hraw, hllm] at h

/-- A failed vision stage always records an error and a warning. -/
theorem tryVision_fail_shape {convertRes llmVision data mimeType}
    (h : (tryLLMVisionExtraction convertRes llmVision data mimeType).invoice
      = none) :
    (∃ e, (tryLLMVisionExtraction convertRes llmVision data mimeType).error
      = some e) ∧
    (tryLLMVisionExtraction convertRes llmVision data mimeType).warnings
      ≠ [] := by
  by_cases hc : mimeType = "application/pdf" ∨
      (4 ≤ data.length ∧ data.take 4 = pdfMagic)
  · cases convertRes with
    | error e =>
      refine ⟨⟨"failed to convert PDF to images: " ++ e, ?_⟩, ?_⟩ <;>
        simp [tryLLMVisionExtraction, hc, visionCallLLM]
    | ok images =>
      cases hv : llmVision (images.head?.getD [])
          (detectImageMimeType (images.head?.getD [])) with
      | error e =>
        refine ⟨⟨e, ?_⟩, ?_⟩ <;>
          simp [tryLLMVisionExtraction, hc, visionCallLLM, hv]
      | ok inv2 =>
        exfalso
        simp [tryLLMVisionExtraction, hc, visionCallLLM, hv] at h
  · cases hv : llmVision data mimeType with
    | error e =>
      refine ⟨⟨e, ?_⟩, ?_⟩ <;>
        simp [tryLLMVisionExtraction, hc, visionCallLLM, hv]
    | ok inv2 =>
      exfalso
      simp [tryLLMVisionExtraction, hc, visionCallLLM, hv] at h

/-- Claim C4 (confirmed): the two stages run in order with short-circuit on
first success. When the miner returns without error and with non-empty text
and the normalizer succeeds, ProcessPDF returns the text-stage success with
method llm_text and confidence 0.85, for EVERY behaviour of the vision
collaborators (they are quantified but absent from the conclusion: the
vision stage is never consulted). When the text stage fails for any reason
and the vision stage succeeds, the vision success is returned with method
llm_vision and confidence 0.80. -/
theorem C4_ProcessPDF (extractRes : Except String ExtractedText)
    (llmOCR : String → Except String Invoice)
    (convertRes : Except String (List (List ℕ)))
    (llmVision : List ℕ → String → Except String Invoice)
    (pdfData : List ℕ) (mimeType : String) :
    (∀ ext inv, extractRes = Except.ok ext → ext.rawText ≠ "" →
      llmOCR ext.rawText = Except.ok inv →
      ProcessPDF extractRes llmOCR convertRes llmVision pdfData mimeType =
        { invoice := some inv, method := "llm_text", confidence := 85/100 }) ∧
    ((tryLLMTextExtraction extractRes llmOCR).invoice = none →
      ∀ inv,
      (tryLLMVisionExtraction convertRes llmVision pdfData mimeType).invoice
        = some inv →
      ProcessPDF extractRes llmOCR convertRes llmVision pdfData mimeType =
        { invoice := some inv, method := "llm_vision",
          confidence := 80/100 }) := by
  constructor
  · intro ext inv he hraw hllm
    subst he
    simp [ProcessPDF, tryLLMTextExtraction, hraw, hllm]
  · intro htfail inv hv
    simp only [ProcessPDF, htfail, hv, Option.isSome_none, Option.isSome_some,
      Bool.false_eq_true, false_and, if_false, if_true]
    exact tryVision_success_shape hv

/-- Witness for C4 at concrete oracles: a succeeding text stage short
circuits, and a failing miner followed by a succeeding vision model falls
back. -/
theorem C4_witness :
    ProcessPDF (Except.ok ⟨"text"⟩) (fun _ => Except.ok {})
        (Except.error "conv") (fun _ _ => Except.error "vis") [] "" =
      { invoice := some {}, method := "llm_text", confidence := 85/100 } ∧
    ProcessPDF (Except.error "mine") (fun _ => Except.error "oops")
        (Except.ok [[255, 216, 255, 0]]) (fun _ _ => Except.ok {})
        [] "application/pdf" =
      { invoice := some {}, method := "llm_vision", confidence := 80/100 } := by
  constructor
  · exact (C4_ProcessPDF _ _ _ _ _ _).1 ⟨"text"⟩ {} rfl (by decide) rfl
  · exact (C4_ProcessPDF (Except.error "mine") (fun _ => Except.error "oops")
      (Except.ok [[255, 216, 255, 0]]) (fun _ _ => Except.ok {})
      [] "application/pdf").2 rfl {} rfl

/-- Claim C5 (confirmed): when both stages fail, the result carries no
invoice, one composite error naming both causes, and the concatenation of
both stages' warnings. -/
theorem C5_ProcessPDF (extractRes : Except String ExtractedText)
    (llmOCR : String → Except String Invoice)
    (convertRes : Except String (List (List ℕ)))
    (llmVision : List ℕ → String → Except String Invoice)
    (pdfData : List ℕ) (mimeType : String)
    (hT : (tryLLMTextExtraction extractRes llmOCR).invoice = none)
    (hV : (tryLLMVisionExtraction convertRes llmVision pdfData
      mimeType).invoice = none) :
    (ProcessPDF extractRes llmOCR convertRes llmVision pdfData
      mimeType).invoice = none ∧
    (∃ te ve,
      (tryLLMTextExtraction extractRes llmOCR).error = some te ∧
      (tryLLMVisionExtraction convertRes llmVision pdfData mimeType).error
        = some ve ∧
      (ProcessPDF extractRes llmOCR convertRes llmVision pdfData
        mimeType).error = some ("PDF extraction failed (text: " ++ te ++
          ", vision: " ++ ve ++ ")")) ∧
    (ProcessPDF extractRes llmOCR convertRes llmVision pdfData
      mimeType).warnings =
      (tryLLMTextExtraction extractRes llmOCR).warnings ++
      (tryLLMVisionExtraction convertRes llmVision pdfData
        mimeType).warnings := by
  obtain ⟨⟨te, hte⟩, -⟩ := tryText_fail_shape hT
  obtain ⟨⟨ve, hve⟩, -⟩ := tryVision_fail_shape hV
  have hres : ProcessPDF extractRes llmOCR convertRes llmVision pdfData
      mimeType =
      { warnings := (tryLLMTextExtraction extractRes llmOCR).warnings ++
          (tryLLMVisionExtraction convertRes llmVision pdfData
            mimeType).warnings,
        error := some ("PDF extraction failed (text: " ++ te ++
          ", vision: " ++ ve ++ ")") } := by
    simp only [ProcessPDF, hT, hV, hte, hve, Option.isSome_none,
      Bool.false_eq_true, false_and, if_false]
    simp [goErrV]
  rw [hres]
  exact ⟨rfl, ⟨te, ve, hte, hve, rfl⟩, rfl⟩

/-- Witness for C5 at concrete oracles: miner error and vision model
error. -/
theorem C5_witness :
    (ProcessPDF (Except.error "mine") (fun _ => Except.error "oops")
      (Except.error "conv") (fun _ _ => Except.error "vis")
      [] "application/pdf").invoice = none ∧
    (ProcessPDF (Except.error "mine") (fun _ => Except.error "oops")
      (Except.error "conv") (fun _ _ => Except.error "vis")
      [] "application/pdf").warnings =
      ["PDF text extraction failed: mine",
       "PDF to image conversion failed: conv"] := by
  have h := C5_ProcessPDF (Except.error "mine") (fun _ => Except.error "oops")
    (Except.error "conv") (fun _ _ => Except.error "vis")
    [] "application/pdf" rfl rfl
  exact ⟨h.1, by rw [h.2.2]; rfl⟩

/-- Claim C10 (confirmed): when the text stage fails (which always records
a warning) and the vision stage succeeds, ProcessPDF returns the vision
result unchanged, and that result carries NO warnings: the text-stage
warning is discarded. -/
theorem C10_ProcessPDF (extractRes : Except String ExtractedText)
    (llmOCR : String → Except String Invoice)
    (convertRes : Except String (List (List ℕ)))
    (llmVision : List ℕ → String → Except String Invoice)
    (pdfData : List ℕ) (mimeType : String)
    (hT : (tryLLMTextExtraction extractRes llmOCR).invoice = none)
    (inv : Invoice)
    (hV : (tryLLMVisionExtraction convertRes llmVision pdfData
      mimeType).invoice = some inv) :
    ProcessPDF extractRes llmOCR convertRes llmVision pdfData mimeType =
      tryLLMVisionExtraction convertRes llmVision pdfData mimeType ∧
    (ProcessPDF extractRes llmOCR convertRes llmVision pdfData
      mimeType).warnings = [] ∧
    (tryLLMTextExtraction extractRes llmOCR).warnings ≠ [] ∧
    (ProcessPDF extractRes llmOCR convertRes llmVision pdfData
      mimeType).method = "llm_vision" ∧
    (ProcessPDF extractRes llmOCR convertRes llmVision pdfData
      mimeType).confidence = 80/100 := by
  have hshape := tryVision_success_shape hV
  have hproc : ProcessPDF extractRes llmOCR convertRes llmVision pdfData
      mimeType =
      tryLLMVisionExtraction convertRes llmVision pdfData mimeType := by
    simp only [ProcessPDF, hT, hV, Option.isSome_none, Option.isSome_some,
      Bool.false_eq_true, false_and, if_false, if_true]
  refine ⟨hproc, ?_, (tryText_fail_shape hT).2, ?_, ?_⟩ <;>
    rw [hproc, hshape]

/-- Witness for C10 at concrete oracles: empty mined text, succeeding
vision model. -/
theorem C10_witness :
    ProcessPDF (Except.ok ⟨""⟩) (fun _ => Except.ok {})
        (Except.ok [[137, 80, 78, 71]]) (fun _ _ => Except.ok {})
        [] "application/pdf" =
      tryLLMVisionExtraction (Except.ok [[137, 80, 78, 71]])
        (fun _ _ => Except.ok {}) [] "application/pdf" ∧
    (ProcessPDF (Except.ok ⟨""⟩) (fun _ => Except.ok {})
        (Except.ok [[137, 80, 78, 71]]) (fun _ _ => Except.ok {})
        [] "application/pdf").warnings = [] := by
  have h := C10_ProcessPDF (Except.ok ⟨""⟩) (fun _ => Except.ok {})
    (Except.ok [[137, 80, 78, 71]]) (fun _ _ => Except.ok {})
    [] "application/pdf" rfl {} rfl
  exact ⟨h.1, h.2.1⟩

/-! ## Response Normalizer: locale-aware decimal parsing (extractor.go
294-311 with shopspring NewFromString)

parseDecimal works on strings; the embedding processes the rune list of
the string. Digit strings are connected to numbers through Nat.digits. -/

/-- Decimal digit characters of a natural number, most significant first;
zero renders as the single digit 0. -/
def natNumerals (n : ℕ) : List Char :=
  if n = 0 then ['0'] else ((Nat.digits 10 n).map Nat.digitChar).reverse

/-- Accumulating value of a digit-character string, as a base-10 left fold;
this is how a decimal integer literal is consumed. -/
def digitsToNat (ds : List Char) : ℕ :=
  ds.foldl (fun a c => a * 10 + (c.toNat - 48)) 0

theorem digitChar_isDigit {d : ℕ} (h : d < 10) :
    (Nat.digitChar d).isDigit = true := by
  interval_cases d <;> decide

theorem digitChar_toNat {d : ℕ} (h : d < 10) :
    (Nat.digitChar d).toNat - 48 = d := by
  interval_cases d <;> decide

theorem natNumerals_all_digits (n : ℕ) :
    ∀ c ∈ natNumerals n, c.isDigit = true := by
  intro c hc
  unfold natNumerals at hc
  split at hc
  · simp at hc
    subst hc
    decide
  · simp only [List.mem_reverse, List.mem_map] at hc
    obtain ⟨d, hd, rfl⟩ := hc
    exact digitChar_isDigit (Nat.digits_lt_base (by norm_num) hd)

theorem isDigit_ne {c : Char} (h : c.isDigit = true) :
    c ≠ '.' ∧ c ≠ ',' ∧ c ≠ '-' ∧ c ≠ '+' ∧ c ≠ 'e' ∧ c ≠ 'E' := by
  refine ⟨?_, ?_, ?_, ?_, ?_, ?_⟩ <;>
    (intro heq; rw [heq] at h; simp at h)

theorem foldl_digits_from (ds : List ℕ) (a : ℕ) (h : ∀ d ∈ ds, d < 10) :
    (ds.map Nat.digitChar).foldl (fun acc c => acc * 10 + (c.toNat - 48)) a
      = ds.foldl (fun acc d => acc * 10 + d) a := by
  induction ds generalizing a with
  | nil => rfl
  | cons d t ih =>
    simp only [List.map_cons, List.foldl_cons]
    rw [digitChar_toNat (h d (by simp))]
    exact ih _ (fun x hx => h x (by simp [hx]))

theorem foldl_reverse_ofDigits (l : List ℕ) (a : ℕ) :
    l.reverse.foldl (fun acc d => acc * 10 + d) a
      = a * 10 ^ l.length + Nat.ofDigits 10 l := by
  induction l generalizing a with
  | nil => simp
  | cons d t ih =>
    simp only [List.reverse_cons, List.foldl_append, List.foldl_cons,
      List.foldl_nil, ih, Nat.ofDigits_cons, List.length_cons]
    ring

theorem digitsToNat_natNumerals (n : ℕ) : digitsToNat (natNumerals n) = n := by
  unfold digitsToNat natNumerals
  split
  · subst n; rfl
  · rw [← List.map_reverse, foldl_digits_from _ _
      (fun d hd => Nat.digits_lt_base (by norm_num) (List.mem_reverse.mp hd)),
      foldl_reverse_ofDigits]
    simp [Nat.ofDigits_digits]

/-- Accumulating a digit string from a running value a shifts a by one
power of ten per consumed character. -/
theorem digitsToNat_from (l : List Char) (a : ℕ) :
    l.foldl (fun acc c => acc * 10 + (c.toNat - 48)) a
      = a * 10 ^ l.length + digitsToNat l := by
  induction l generalizing a with
  | nil => simp [digitsToNat]
  | cons c t ih =>
    simp only [List.foldl_cons, List.length_cons]
    rw [ih (a * 10 + (c.toNat - 48))]
    have hc : digitsToNat (c :: t) = (c.toNat - 48) * 10 ^ t.length
        + digitsToNat t := by
      unfold digitsToNat
      simp only [List.foldl_cons]
      rw [show (0 * 10 + (c.toNat - 48)) = c.toNat - 48 by ring]
      exact ih (c.toNat - 48)
    rw [hc]
    ring

/-- Value of the concatenation of two digit strings. -/
theorem digitsToNat_append (l1 l2 : List Char) :
    digitsToNat (l1 ++ l2) =
      digitsToNat l1 * 10 ^ l2.length + digitsToNat l2 := by
  unfold digitsToNat
  rw [List.foldl_append]
  exact digitsToNat_from l2 _

/-- Left-padding with zero digits does not change the accumulated value. -/
theorem digitsToNat_replicate_zero (j : ℕ) (ds : List Char) :
    digitsToNat (List.replicate j '0' ++ ds) = digitsToNat ds := by
  rw [digitsToNat_append]
  have : digitsToNat (List.replicate j '0') = 0 := by
    induction j with
    | zero => rfl
    | succ i ih =>
      rw [List.replicate_succ]
      unfold digitsToNat at ih ⊢
      simpa using ih
  rw [this]
  ring

/-- Signed integer literal of strconv.ParseInt and big.Int SetString in base
10: optional sign, then at least one digit and nothing else. ParseInt is
used for at most 18 digits where an int64 cannot overflow, and big.Int
beyond, so the value is exact. -/
def parseIntChars (cs : List Char) : Option ℤ :=
  match cs with
  | [] => none
  | c :: t =>
    if c = '-' then
      if t ≠ [] ∧ t.all Char.isDigit then some (-(digitsToNat t : ℤ)) else none
    else if c = '+' then
      if t ≠ [] ∧ t.all Char.isDigit then some ((digitsToNat t : ℤ)) else none
    else if (c :: t).all Char.isDigit then some ((digitsToNat (c :: t) : ℤ))
    else none

/-- shopspring NewFromString: split off a scientific exponent at the first
e or E (its value must fit in an int32), allow at most one decimal point in
the mantissa, fold the fraction into the exponent, and parse the remaining
signed digit run. -/
def decNewFromString (cs : List Char) : Option ℚ :=
  let mantExp := cs.span (fun c => ¬ (c = 'e' ∨ c = 'E'))
  let expRes : Option ℤ :=
    match mantExp.2 with
    | [] => some 0
    | _ :: et =>
      match parseIntChars et with
      | none => none
      | some e => if e < -(2 ^ 31) ∨ 2 ^ 31 ≤ e then none else some e
  match expRes with
  | none => none
  | some e0 =>
    let ipFr := mantExp.1.span (fun c => ¬ c = '.')
    match ipFr.2 with
    | [] =>
      match parseIntChars mantExp.1 with
      | none => none
      | some n => some ((n : ℚ) * 10 ^ e0)
    | _ :: fp =>
      if fp.any (fun c => c = '.') then none
      else
        match parseIntChars (ipFr.1 ++ fp) with
        | none => none
        | some n => some ((n : ℚ) * 10 ^ (e0 - fp.length))

/-- Dot stripping of strings.ReplaceAll with the dot and the empty
replacement. -/
def removeDots : List Char → List Char
  | [] => []
  | c :: t => if c = '.' then removeDots t else c :: removeDots t

/-- parseDecimal (extractor.go 294-311): empty json.Number is zero; strip
every dot (Vietnamese thousands separator), turn the comma into a decimal
point, parse with NewFromString, and fall back to zero on any failure. -/
def parseDecimal (n : String) : ℚ :=
  if n = "" then 0
  else
    let s := (removeDots n.toList).map (fun c => if c = ',' then '.' else c)
    match decNewFromString s with
    | none => 0
    | some d => d

/-! ## Rendering canonical values in the Normalizer-compatible shape -/

/-- Grouping pass over the reversed digit list: a separating dot goes in
front of every third digit from the right. -/
def group3Aux : List Char → ℕ → List Char
  | [], _ => []
  | c :: rest, i =>
    (if 0 < i ∧ i % 3 = 0 then ['.', c] else [c]) ++ group3Aux rest (i + 1)

/-- Vietnamese thousands grouping of a digit string. -/
def group3 (ds : List Char) : List Char := (group3Aux ds.reverse 0).reverse

/-- Zero digits padding a string on the left up to width k. -/
def padLeftZeros (k : ℕ) (ds : List Char) : List Char :=
  List.replicate (k - ds.length) '0' ++ ds

/-- Modelled from the spec: the Vietnamese numeric formatting of the value
n divided by ten to the k, as the JSON rendering the Normalizer-compatible
fixtures use — minus sign, integer digits grouped by dots, and for k above
zero a comma followed by exactly k fraction digits. The repository has no
renderer; it exists only as the round-trip spec's left leg. -/
def renderDecChars (n : ℤ) (k : ℕ) : List Char :=
  (if n < 0 then ['-'] else []) ++
  group3 (natNumerals (n.natAbs / 10 ^ k)) ++
  (if k = 0 then [] else ',' :: padLeftZeros k (natNumerals (n.natAbs % 10 ^ k)))

/-- Modelled from the spec: the rendered string of a scaled decimal. -/
def renderDec (n : ℤ) (k : ℕ) : String := String.mk (renderDecChars n k)

/-! ## Lemmas connecting the rendering and the parser -/

theorem group3Aux_mem {l : List Char} {i : ℕ} {c : Char}
    (h : c ∈ group3Aux l i) : c ∈ l ∨ c = '.' := by
  induction l generalizing i with
  | nil => simp [group3Aux] at h
  | cons d t ih =>
    unfold group3Aux at h
    rcases List.mem_append.mp h with h1 | h1
    · split at h1
      · simp only [List.mem_cons, List.not_mem_nil, or_false] at h1
        rcases h1 with h1 | h1
        · exact Or.inr h1
        · exact Or.inl (by simp [h1])
      · simp only [List.mem_cons, List.not_mem_nil, or_false] at h1
        exact Or.inl (by simp [h1])
    · rcases ih h1 with h2 | h2
      · exact Or.inl (by simp [h2])
      · exact Or.inr h2

theorem group3_mem {ds : List Char} {c : Char} (h : c ∈ group3 ds) :
    c ∈ ds ∨ c = '.' := by
  unfold group3 at h
  rcases group3Aux_mem (List.mem_reverse.mp h) with h1 | h1
  · exact Or.inl (List.mem_reverse.mp h1)
  · exact Or.inr h1

theorem removeDots_append (l1 l2 : List Char) :
    removeDots (l1 ++ l2) = removeDots l1 ++ removeDots l2 := by
  induction l1 with
  | nil => rfl
  | cons c t ih =>
    by_cases hc : c = '.'
    · simp [removeDots, hc, ih]
    · simp [removeDots, hc, ih]

theorem removeDots_of_no_dot {l : List Char} (h : '.' ∉ l) :
    removeDots l = l := by
  induction l with
  | nil => rfl
  | cons c t ih =>
    have hc : ¬ c = '.' := fun hcc => h (by simp [hcc])
    rw [removeDots, if_neg hc, ih (fun htt => h (by simp [htt]))]

theorem removeDots_reverse (l : List Char) :
    removeDots l.reverse = (removeDots l).reverse := by
  induction l with
  | nil => rfl
  | cons c t ih =>
    by_cases hc : c = '.'
    · simp [removeDots, hc, removeDots_append, ih]
    · simp [removeDots, hc, removeDots_append, ih]

theorem group3Aux_removeDots {l : List Char} (i : ℕ) (h : '.' ∉ l) :
    removeDots (group3Aux l i) = l := by
  induction l generalizing i with
  | nil => rfl
  | cons d t ih =>
    have hd : ¬ d = '.' := fun hdd => h (by simp [hdd])
    have ht : '.' ∉ t := fun htt => h (by simp [htt])
    unfold group3Aux
    rw [removeDots_append]
    split
    · rw [show removeDots ['.', d] = [d] by simp [removeDots, hd]]
      rw [ih (i + 1) ht]
      rfl
    · rw [show removeDots [d] = [d] by simp [removeDots, hd]]
      rw [ih (i + 1) ht]
      rfl

theorem group3_removeDots {ds : List Char} (h : '.' ∉ ds) :
    removeDots (group3 ds) = ds := by
  unfold group3
  rw [removeDots_reverse, group3Aux_removeDots 0 (by simpa using h)]
  simp

theorem group3_ne_nil {ds : List Char} (h : ds ≠ []) : group3 ds ≠ [] := by
  unfold group3
  simp only [ne_eq, List.reverse_eq_nil_iff]
  cases hrev : ds.reverse with
  | nil => exact absurd (by simpa using hrev) h
  | cons c t =>
    unfold group3Aux
    split <;> simp

theorem natNumerals_ne_nil (n : ℕ) : natNumerals n ≠ [] := by
  unfold natNumerals
  split
  · simp
  · simp only [ne_eq, List.reverse_eq_nil_iff, List.map_eq_nil_iff]
    intro hdig
    exact absurd (Nat.digits_eq_nil_iff_eq_zero.mp hdig) (by assumption)

theorem span_all {p : Char → Bool} {l : List Char}
    (h : ∀ c ∈ l, p c = true) : l.span p = (l, []) := by
  rw [List.span_eq_take_drop]
  rw [List.takeWhile_eq_self_iff.mpr h, List.dropWhile_eq_nil_iff.mpr h]

theorem span_break {p : Char → Bool} {l1 l2 : List Char} {x : Char}
    (h1 : ∀ c ∈ l1, p c = true) (hx : p x = false) :
    (l1 ++ x :: l2).span p = (l1, x :: l2) := by
  rw [List.span_eq_take_drop, Prod.mk.injEq]
  constructor
  · induction l1 with
    | nil => simp [List.takeWhile_cons, hx]
    | cons c t ih =>
      rw [List.cons_append, List.takeWhile_cons, h1 c (by simp)]
      simp only [if_true]
      rw [ih (fun d hd => h1 d (by simp [hd]))]
  · induction l1 with
    | nil => simp [List.dropWhile_cons, hx]
    | cons c t ih =>
      rw [List.cons_append, List.dropWhile_cons, h1 c (by simp)]
      simp only [if_true]
      exact ih (fun d hd => h1 d (by simp [hd]))

theorem parseIntChars_digits {ds : List Char} (hne : ds ≠ [])
    (h : ∀ c ∈ ds, c.isDigit = true) :
    parseIntChars ds = some ((digitsToNat ds : ℤ)) := by
  match ds, hne with
  | c :: t, _ =>
    have hc := h c (by simp)
    obtain ⟨-, -, hcm, hcp, -, -⟩ := isDigit_ne hc
    simp only [parseIntChars]
    rw [if_neg hcm, if_neg hcp, if_pos (List.all_eq_true.mpr h)]

theorem parseIntChars_neg_digits {ds : List Char} (hne : ds ≠ [])
    (h : ∀ c ∈ ds, c.isDigit = true) :
    parseIntChars ('-' :: ds) = some (-(digitsToNat ds : ℤ)) := by
  simp only [parseIntChars, if_true]
  rw [if_pos ⟨hne, List.all_eq_true.mpr h⟩]

theorem natNumerals_len_le {m k : ℕ} (hm : m < 10 ^ k) (hk : 1 ≤ k) :
    (natNumerals m).length ≤ k := by
  unfold natNumerals
  split
  · simpa using hk
  · simp only [List.length_reverse, List.length_map]
    rw [Nat.digits_len 10 m (by norm_num) (by assumption)]
    have := Nat.log_lt_of_lt_pow (by assumption) hm
    omega

theorem padLeftZeros_length {k : ℕ} {ds : List Char} (h : ds.length ≤ k) :
    (padLeftZeros k ds).length = k := by
  unfold padLeftZeros
  simp only [List.length_append, List.length_replicate]
  omega

theorem padLeftZeros_all_digits {k : ℕ} {ds : List Char}
    (h : ∀ c ∈ ds, c.isDigit = true) :
    ∀ c ∈ padLeftZeros k ds, c.isDigit = true := by
  intro c hc
  rcases List.mem_append.mp hc with h1 | h1
  · rw [List.eq_of_mem_replicate h1]
    decide
  · exact h c h1

theorem digitsToNat_padLeftZeros (k : ℕ) (ds : List Char) :
    digitsToNat (padLeftZeros k ds) = digitsToNat ds :=
  digitsToNat_replicate_zero _ _

/-- The span predicate of the exponent scan accepts every character that is
neither e nor E. -/
theorem span_noE {l : List Char}
    (h : ∀ c ∈ l, ¬ c = 'e' ∧ ¬ c = 'E') :
    l.span (fun c => ¬ (c = 'e' ∨ c = 'E')) = (l, []) := by
  apply span_all
  intro c hc
  simpa using h c hc

theorem decNewFromString_digits {I : List Char} (hne : I ≠ [])
    (hdig : ∀ c ∈ I, c.isDigit = true) :
    decNewFromString I = some ((digitsToNat I : ℚ)) := by
  have hnoE := span_noE (l := I) (fun c hc =>
    ⟨(isDigit_ne (hdig c hc)).2.2.2.2.1, (isDigit_ne (hdig c hc)).2.2.2.2.2⟩)
  have hnoDot : I.span (fun c => ¬ c = '.') = (I, []) := by
    apply span_all
    intro c hc
    simpa using (isDigit_ne (hdig c hc)).1
  simp only [decNewFromString, hnoE, hnoDot, parseIntChars_digits hne hdig]
  norm_num

theorem decNewFromString_neg_digits {I : List Char} (hne : I ≠ [])
    (hdig : ∀ c ∈ I, c.isDigit = true) :
    decNewFromString ('-' :: I) = some (-(digitsToNat I : ℚ)) := by
  have hsign : ∀ c ∈ '-' :: I, ¬ c = 'e' ∧ ¬ c = 'E' := by
    intro c hc
    rcases List.mem_cons.mp hc with h1 | h1
    · subst h1; exact ⟨by decide, by decide⟩
    · exact ⟨(isDigit_ne (hdig c h1)).2.2.2.2.1,
        (isDigit_ne (hdig c h1)).2.2.2.2.2⟩
  have hnoE := span_noE hsign
  have hnoDot : ('-' :: I).span (fun c => ¬ c = '.') = ('-' :: I, []) := by
    apply span_all
    intro c hc
    rcases List.mem_cons.mp hc with h1 | h1
    · subst h1; decide
    · simpa using (isDigit_ne (hdig c h1)).1
  simp only [decNewFromString, hnoE, hnoDot, parseIntChars_neg_digits hne hdig]
  norm_num

theorem decNewFromString_digits_frac {I F : List Char} (hne : I ≠ [])
    (hdigI : ∀ c ∈ I, c.isDigit = true)
    (hdigF : ∀ c ∈ F, c.isDigit = true) :
    decNewFromString (I ++ '.' :: F) =
      some ((digitsToNat (I ++ F) : ℚ) * 10 ^ (-(F.length : ℤ))) := by
  have hmem : ∀ c ∈ I ++ '.' :: F, ¬ c = 'e' ∧ ¬ c = 'E' := by
    intro c hc
    rcases List.mem_append.mp hc with h1 | h1
    · exact ⟨(isDigit_ne (hdigI c h1)).2.2.2.2.1,
        (isDigit_ne (hdigI c h1)).2.2.2.2.2⟩
    · rcases List.mem_cons.mp h1 with h2 | h2
      · subst h2; exact ⟨by decide, by decide⟩
      · exact ⟨(isDigit_ne (hdigF c h2)).2.2.2.2.1,
          (isDigit_ne (hdigF c h2)).2.2.2.2.2⟩
  have hnoE := span_noE hmem
  have hdotSpan : (I ++ '.' :: F).span (fun c => ¬ c = '.') = (I, '.' :: F) := by
    apply span_break
    · intro c hc
      simpa using (isDigit_ne (hdigI c hc)).1
    · simp
  have hany : F.any (fun c => c = '.') = false := by
    rw [Bool.eq_false_iff]
    intro hc
    rw [List.any_eq_true] at hc
    obtain ⟨c, hc1, hc2⟩ := hc
    exact (isDigit_ne (hdigF c hc1)).1 (by simpa using hc2)
  have hIF : I ++ F ≠ [] := by
    intro hc
    exact hne (List.append_eq_nil.mp hc).1
  have hdigIF : ∀ c ∈ I ++ F, c.isDigit = true := by
    intro c hc
    rcases List.mem_append.mp hc with h1 | h1
    · exact hdigI c h1
    · exact hdigF c h1
  simp only [decNewFromString, hnoE, hdotSpan, hany,
    parseIntChars_digits hIF hdigIF]
  norm_num

theorem decNewFromString_neg_digits_frac {I F : List Char} (hne : I ≠ [])
    (hdigI : ∀ c ∈ I, c.isDigit = true)
    (hdigF : ∀ c ∈ F, c.isDigit = true) :
    decNewFromString ('-' :: I ++ '.' :: F) =
      some (-(digitsToNat (I ++ F) : ℚ) * 10 ^ (-(F.length : ℤ))) := by
  have hmem : ∀ c ∈ '-' :: I ++ '.' :: F, ¬ c = 'e' ∧ ¬ c = 'E' := by
    intro c hc
    rcases List.mem_cons.mp hc with h1 | h1
    · subst h1; exact ⟨by decide, by decide⟩
    · rcases List.mem_append.mp h1 with h2 | h2
      · exact ⟨(isDigit_ne (hdigI c h2)).2.2.2.2.1,
          (isDigit_ne (hdigI c h2)).2.2.2.2.2⟩
      · rcases List.mem_cons.mp h2 with h3 | h3
        · subst h3; exact ⟨by decide, by decide⟩
        · exact ⟨(isDigit_ne (hdigF c h3)).2.2.2.2.1,
            (isDigit_ne (hdigF c h3)).2.2.2.2.2⟩
  have hnoE := span_noE hmem
  have hdotSpan : ('-' :: I ++ '.' :: F).span (fun c => ¬ c = '.')
      = ('-' :: I, '.' :: F) := by
    rw [show ('-' :: I ++ '.' :: F) = ('-' :: I) ++ '.' :: F by simp]
    apply span_break
    · intro c hc
      rcases List.mem_cons.mp hc with h1 | h1
      · subst h1; decide
      · simpa using (isDigit_ne (hdigI c h1)).1
    · simp
  have hany : F.any (fun c => c = '.') = false := by
    rw [Bool.eq_false_iff]
    intro hc
    rw [List.any_eq_true] at hc
    obtain ⟨c, hc1, hc2⟩ := hc
    exact (isDigit_ne (hdigF c hc1)).1 (by simpa using hc2)
  have hIF : I ++ F ≠ [] := by
    intro hc
    exact hne (List.append_eq_nil.mp hc).1
  have hdigIF : ∀ c ∈ I ++ F, c.isDigit = true := by
    intro c hc
    rcases List.mem_append.mp hc with h1 | h1
    · exact hdigI c h1
    · exact hdigF c h1
  have hcons : ('-' :: I) ++ F = '-' :: (I ++ F) := by simp
  simp only [decNewFromString, hnoE, hdotSpan, hany, hcons,
    parseIntChars_neg_digits hIF hdigIF]
  norm_num

theorem map_swap_of_digits {l : List Char} (h : ∀ c ∈ l, c.isDigit = true) :
    l.map (fun c => if c = ',' then '.' else c) = l := by
  induction l with
  | nil => rfl
  | cons c t ih =>
    rw [List.map_cons, if_neg (isDigit_ne (h c (by simp))).2.1,
      ih (fun d hd => h d (by simp [hd]))]

/-- The round trip of one numeric field: Vietnamese rendering of the scaled
decimal n over ten to the k, then parseDecimal, recovers the value. -/
theorem parseDecimal_renderDec (n : ℤ) (k : ℕ) :
    parseDecimal (renderDec n k) = (n : ℚ) / 10 ^ k := by
  have hIdig := natNumerals_all_digits (n.natAbs / 10 ^ k)
  have hInil := natNumerals_ne_nil (n.natAbs / 10 ^ k)
  have hIdot : '.' ∉ natNumerals (n.natAbs / 10 ^ k) :=
    fun hc => (isDigit_ne (hIdig _ hc)).1 rfl
  have hFdig := padLeftZeros_all_digits (k := k)
    (natNumerals_all_digits (n.natAbs % 10 ^ k))
  have hFdot : '.' ∉ padLeftZeros k (natNumerals (n.natAbs % 10 ^ k)) :=
    fun hc => (isDigit_ne (hFdig _ hc)).1 rfl
  have htoList : (renderDec n k).toList = renderDecChars n k := rfl
  have hne : ¬ (renderDec n k = "") := by
    intro hc
    have h0 : renderDecChars n k = [] := by
      have := congrArg String.toList hc
      simpa [htoList] using this
    unfold renderDecChars at h0
    rcases List.append_eq_nil.mp h0 with ⟨h1, h2⟩
    rcases List.append_eq_nil.mp h1 with ⟨h3, h4⟩
    exact group3_ne_nil hInil h4
  have hstrip : removeDots (renderDecChars n k) =
      (if n < 0 then ['-'] else []) ++
      natNumerals (n.natAbs / 10 ^ k) ++
      (if k = 0 then []
       else ',' :: padLeftZeros k (natNumerals (n.natAbs % 10 ^ k))) := by
    unfold renderDecChars
    rw [removeDots_append, removeDots_append]
    have hsgn : removeDots (if n < 0 then ['-'] else [])
        = (if n < 0 then ['-'] else []) := by
      split <;> simp [removeDots]
    have hg := group3_removeDots hIdot
    have htl : removeDots (if k = 0 then []
        else ',' :: padLeftZeros k (natNumerals (n.natAbs % 10 ^ k)))
        = (if k = 0 then []
           else ',' :: padLeftZeros k (natNumerals (n.natAbs % 10 ^ k))) := by
      split
      · rfl
      · rw [show removeDots (',' :: padLeftZeros k
            (natNumerals (n.natAbs % 10 ^ k)))
            = ',' :: removeDots (padLeftZeros k
              (natNumerals (n.natAbs % 10 ^ k))) by simp [removeDots]]
        rw [removeDots_of_no_dot hFdot]
    rw [hsgn, hg, htl]
  have hmap : ((if n < 0 then ['-'] else []) ++
      natNumerals (n.natAbs / 10 ^ k) ++
      (if k = 0 then []
       else ',' :: padLeftZeros k (natNumerals (n.natAbs % 10 ^ k)))).map
        (fun c => if c = ',' then '.' else c) =
      (if n < 0 then ['-'] else []) ++
      natNumerals (n.natAbs / 10 ^ k) ++
      (if k = 0 then []
       else '.' :: padLeftZeros k (natNumerals (n.natAbs % 10 ^ k))) := by
    rw [List.map_append, List.map_append]
    have h1 : (if n < 0 then ['-'] else []).map
        (fun c => if c = ',' then '.' else c)
        = (if n < 0 then ['-'] else []) := by
      split <;> simp
    have h2 := map_swap_of_digits hIdig
    have h3 : (if k = 0 then []
        else ',' :: padLeftZeros k (natNumerals (n.natAbs % 10 ^ k))).map
          (fun c => if c = ',' then '.' else c)
        = (if k = 0 then []
           else '.' :: padLeftZeros k (natNumerals (n.natAbs % 10 ^ k))) := by
      split
      · rfl
      · rw [List.map_cons, if_pos rfl, map_swap_of_digits hFdig]
    rw [h1, h2, h3]
  simp only [parseDecimal, hne, if_false]
  rw [htoList, hstrip, hmap]
  by_cases hk : k = 0
  · subst hk
    simp only [if_pos, if_true, List.append_nil]
    have hval : digitsToNat (natNumerals (n.natAbs / 10 ^ 0)) = n.natAbs := by
      rw [digitsToNat_natNumerals]
      simp
    by_cases hn : n < 0
    · rw [if_pos hn, List.singleton_append,
        decNewFromString_neg_digits hInil hIdig, hval]
      have hfin : ((n.natAbs : ℚ)) = -(n : ℚ) := by
        have h1 : ((n.natAbs : ℤ)) = -n := by omega
        calc ((n.natAbs : ℚ)) = (((n.natAbs : ℤ) : ℚ)) :=
              (Int.cast_natCast n.natAbs).symm
          _ = ((-n : ℤ) : ℚ) := by rw [h1]
          _ = -(n : ℚ) := Int.cast_neg n
      rw [hfin]
      norm_num
    · rw [if_neg hn, List.nil_append,
        decNewFromString_digits hInil hIdig, hval]
      have hfin : ((n.natAbs : ℚ)) = (n : ℚ) := by
        have h1 : ((n.natAbs : ℤ)) = n := by omega
        calc ((n.natAbs : ℚ)) = (((n.natAbs : ℤ) : ℚ)) :=
              (Int.cast_natCast n.natAbs).symm
          _ = (n : ℚ) := by rw [h1]
      rw [hfin]
      norm_num
  · rw [if_neg hk]
    have hk1 : 1 ≤ k := by omega
    have hBlt : n.natAbs % 10 ^ k < 10 ^ k :=
      Nat.mod_lt _ (by positivity)
    have hFlen : (padLeftZeros k (natNumerals (n.natAbs % 10 ^ k))).length
        = k := padLeftZeros_length (natNumerals_len_le hBlt hk1)
    have hvalIF : digitsToNat (natNumerals (n.natAbs / 10 ^ k) ++
        padLeftZeros k (natNumerals (n.natAbs % 10 ^ k))) = n.natAbs := by
      rw [digitsToNat_append, hFlen, digitsToNat_padLeftZeros,
        digitsToNat_natNumerals, digitsToNat_natNumerals, mul_comm]
      exact Nat.div_add_mod _ _
    have hzpow : ((10 : ℚ) ^ (-(k : ℤ))) = ((10 : ℚ) ^ k)⁻¹ := by
      rw [zpow_neg, zpow_natCast]
    by_cases hn : n < 0
    · rw [if_pos hn, List.singleton_append,
        show ('-' :: natNumerals (n.natAbs / 10 ^ k)) ++
          ('.' :: padLeftZeros k (natNumerals (n.natAbs % 10 ^ k)))
          = '-' :: natNumerals (n.natAbs / 10 ^ k) ++
            '.' :: padLeftZeros k (natNumerals (n.natAbs % 10 ^ k)) from rfl,
        decNewFromString_neg_digits_frac hInil hIdig hFdig, hvalIF, hFlen]
      have hfin : ((n.natAbs : ℚ)) = -(n : ℚ) := by
        have h1 : ((n.natAbs : ℤ)) = -n := by omega
        calc ((n.natAbs : ℚ)) = (((n.natAbs : ℤ) : ℚ)) :=
              (Int.cast_natCast n.natAbs).symm
          _ = ((-n : ℤ) : ℚ) := by rw [h1]
          _ = -(n : ℚ) := Int.cast_neg n
      simp only [hzpow]
      rw [hfin]
      field_simp
    · rw [if_neg hn, List.nil_append,
        decNewFromString_digits_frac hInil hIdig hFdig, hvalIF, hFlen]
      have hfin : ((n.natAbs : ℚ)) = (n : ℚ) := by
        have h1 : ((n.natAbs : ℤ)) = n := by omega
        calc ((n.natAbs : ℚ)) = (((n.natAbs : ℤ) : ℚ)) :=
              (Int.cast_natCast n.natAbs).symm
          _ = (n : ℚ) := by rw [h1]
      simp only [hzpow]
      rw [hfin]
      field_simp

/-! ## Response Normalizer: dates, enumerations, conversion
(extractor.go 149-311) -/

def isLeapYear (y : ℕ) : Bool :=
  decide ((y % 4 = 0 ∧ ¬ y % 100 = 0) ∨ y % 400 = 0)

def daysInMonth (y m : ℕ) : ℕ :=
  if m = 2 then (if isLeapYear y then 29 else 28)
  else if m = 4 ∨ m = 6 ∨ m = 9 ∨ m = 11 then 30
  else 31

/-- Calendar validation Go's time.Parse performs: month and day in range
for the proleptic Gregorian calendar. -/
def mkDate (y m d : ℕ) : Option GoDate :=
  if 1 ≤ m ∧ m ≤ 12 ∧ 1 ≤ d ∧ d ≤ daysInMonth y m then some ⟨y, m, d⟩
  else none

/-- time.Parse with layout 2006-01-02: four year digits, dash, two month
digits, dash, two day digits, then calendar validation. -/
def parseYMD : List Char → Option GoDate
  | [y1, y2, y3, y4, s1, m1, m2, s2, d1, d2] =>
    if s1 = '-' ∧ s2 = '-' ∧
        [y1, y2, y3, y4, m1, m2, d1, d2].all Char.isDigit then
      mkDate (digitsToNat [y1, y2, y3, y4]) (digitsToNat [m1, m2])
        (digitsToNat [d1, d2])
    else none
  | _ => none

/-- time.Parse with the zero-padded day/month layouts 02/01/2006 and
02-01-2006, the separator passed in. -/
def parseDMY (sep : Char) : List Char → Option GoDate
  | [d1, d2, s1, m1, m2, s2, y1, y2, y3, y4] =>
    if s1 = sep ∧ s2 = sep ∧
        [d1, d2, m1, m2, y1, y2, y3, y4].all Char.isDigit then
      mkDate (digitsToNat [y1, y2, y3, y4]) (digitsToNat [m1, m2])
        (digitsToNat [d1, d2])
    else none
  | _ => none

/-- time.Parse with layout 2/1/2006: day and month of one or two digits. -/
def parseDMYflex (cs : List Char) : Option GoDate :=
  match cs.splitOn '/' with
  | [dp, mp, yp] =>
    if 1 ≤ dp.length ∧ dp.length ≤ 2 ∧ dp.all Char.isDigit ∧
        1 ≤ mp.length ∧ mp.length ≤ 2 ∧ mp.all Char.isDigit ∧
        yp.length = 4 ∧ yp.all Char.isDigit then
      mkDate (digitsToNat yp) (digitsToNat mp) (digitsToNat dp)
    else none
  | _ => none

/-- Zone suffix shape of RFC3339: the letter Z or a signed four-digit
offset with a colon. -/
def tzShape : List Char → Bool
  | ['Z'] => true
  | sgn :: z1 :: z2 :: cz :: z3 :: z4 :: rest =>
    (sgn == '+' || sgn == '-') && cz == ':' && rest.isEmpty &&
      [z1, z2, z3, z4].all Char.isDigit
  | _ => false

/-- time.Parse with the RFC3339 layout; the code keeps only the calendar
date of the parsed time, so the time of day and the zone are validated in
shape and dropped. -/
def parseRFC3339 (cs : List Char) : Option GoDate :=
  if cs.length < 20 then none
  else
    match parseYMD (cs.take 10) with
    | none => none
    | some dte =>
      match cs.drop 10 with
      | 'T' :: h1 :: h2 :: c1 :: mi1 :: mi2 :: c2 :: s1 :: s2 :: tz =>
        if c1 = ':' ∧ c2 = ':' ∧
            [h1, h2, mi1, mi2, s1, s2].all Char.isDigit ∧
            digitsToNat [h1, h2] ≤ 23 ∧ digitsToNat [mi1, mi2] ≤ 59 ∧
            digitsToNat [s1, s2] ≤ 59 ∧ tzShape tz = true then some dte
        else none
      | _ => none

/-- Whitespace set of strings.TrimSpace on the characters that occur in
practice (ASCII whitespace plus next line and no-break space). -/
def isGoSpace (c : Char) : Bool :=
  decide (c = ' ' ∨ c = '\t' ∨ c = '\n' ∨ c = '\r' ∨
    c = Char.ofNat 0x0B ∨ c = Char.ofNat 0x0C ∨
    c = Char.ofNat 0x85 ∨ c = Char.ofNat 0xA0)

def goTrimSpace (cs : List Char) : List Char :=
  ((cs.dropWhile isGoSpace).reverse.dropWhile isGoSpace).reverse

/-- parseDate (extractor.go 254-272): trim, then try the five layouts in
order, first success winning; total failure is an absent date. -/
def parseDate (s : String) : Option GoDate :=
  let cs := goTrimSpace s.toList
  match parseYMD cs with
  | some t => some t
  | none =>
    match parseDMY '/' cs with
    | some t => some t
    | none =>
      match parseDMYflex cs with
      | some t => some t
      | none =>
        match parseDMY '-' cs with
        | some t => some t
        | none => parseRFC3339 cs

/-- Lowercasing of strings.ToLower restricted to ASCII, which covers every
comparison the code makes. -/
def goToLower (s : String) : String := String.mk (s.toList.map Char.toLower)

/-- parseInvoiceType (extractor.go 274-283); the Go constants are the
strings Normal, Replacement and Adjustment. -/
def parseInvoiceType (s : String) : String :=
  if goToLower s = "replacement" then "Replacement"
  else if goToLower s = "adjustment" then "Adjustment"
  else "Normal"

/-- parseDocumentType (extractor.go 285-292); the Go constants are the
strings invoice and receipt. -/
def parseDocumentType (s : String) : String :=
  if goToLower s = "receipt" then "receipt" else "invoice"

/-- shopspring IntPart: the integer component, truncated toward zero. -/
def qTrunc (q : ℚ) : ℤ := q.num.tdiv (q.den : ℤ)

/-- LLMParty (extractor.go 122-130). -/
structure LLMParty where
  name : String := ""
  taxId : String := ""
  address : String := ""
  phone : String := ""
  email : String := ""
  bankAccount : String := ""
  bankName : String := ""
deriving DecidableEq

/-- LLMLineItem (extractor.go 133-147); json.Number fields are carried as
their raw literal strings, absent fields decoding to the empty string. -/
structure LLMLineItem where
  number : ℤ := 0
  code : String := ""
  name : String := ""
  description : String := ""
  unit : String := ""
  quantity : String := ""
  unitPrice : String := ""
  discountPercent : String := ""
  discountAmount : String := ""
  amount : String := ""
  vatRate : String := ""
  vatAmount : String := ""
  total : String := ""
deriving DecidableEq

/-- LLMResponse (extractor.go 96-119). -/
structure LLMResponse where
  invoiceNumber : String := ""
  series : String := ""
  date : String := ""
  type : String := ""
  seller : LLMParty := {}
  buyer : LLMParty := {}
  items : List LLMLineItem := []
  subtotal : String := ""
  totalDiscount : String := ""
  totalVAT : String := ""
  totalAmount : String := ""
  currency : String := ""
  paymentMethod : String := ""
  notes : String := ""
  documentType : String := ""
  receiptNumber : String := ""
  cashier : String := ""
  terminalID : String := ""
  time : String := ""
  amountTendered : String := ""
  change : String := ""
deriving DecidableEq

/-- convertToInvoice (extractor.go 161-252): the Response Normalizer's
conversion of a decoded model response into the canonical entity. The
derived line-item fields are copied from the response through parseDecimal;
LineItem.Calculate is NOT invoked. The buyer conversion copies five fields
only: bank account and bank name are dropped. The error return of the Go
function is always nil, so the embedding returns the invoice directly. -/
def convertToInvoice (resp : LLMResponse) : Invoice :=
  let docNumber :=
    if resp.invoiceNumber = "" then resp.receiptNumber else resp.invoiceNumber
  let inv : Invoice :=
    { number := docNumber,
      series := resp.series,
      currency := resp.currency,
      remarks := resp.notes,
      provider := "UNKNOWN",
      documentType := parseDocumentType resp.documentType,
      cashier := resp.cashier,
      terminalID := resp.terminalID,
      paymentMethod := resp.paymentMethod,
      receiptNumber := resp.receiptNumber,
      receiptTime := resp.time,
      amountTendered := parseDecimal resp.amountTendered,
      change := parseDecimal resp.change,
      date :=
        if resp.date ≠ "" then
          match parseDate resp.date with
          | some t => t
          | none => {}
        else {},
      type := parseInvoiceType resp.type,
      seller :=
        { name := resp.seller.name, taxId := resp.seller.taxId,
          address := resp.seller.address, phone := resp.seller.phone,
          email := resp.seller.email, bankAccount := resp.seller.bankAccount,
          bankName := resp.seller.bankName },
      buyer :=
        { name := resp.buyer.name, taxId := resp.buyer.taxId,
          address := resp.buyer.address, phone := resp.buyer.phone,
          email := resp.buyer.email },
      items := resp.items.map (fun item =>
        { number := item.number,
          code := item.code,
          name := item.name,
          description := item.description,
          unit := item.unit,
          quantity := parseDecimal item.quantity,
          unitPrice := parseDecimal item.unitPrice,
          discount := parseDecimal item.discountPercent,
          discountAmt := parseDecimal item.discountAmount,
          amount := parseDecimal item.amount,
          vatAmount := parseDecimal item.vatAmount,
          total := parseDecimal item.total,
          vatRate :=
            if ¬ (parseDecimal item.vatRate = 0) then
              qTrunc (parseDecimal item.vatRate)
            else 0 }),
      subtotalAmount := parseDecimal resp.subtotal,
      taxAmount := parseDecimal resp.totalVAT,
      totalAmount := parseDecimal resp.totalAmount }
  if inv.currency = "" then { inv with currency := "VND" } else inv

/-- Unsigned digit strings evaluate through parseDecimal to their base-10
value. -/
theorem parseDecimal_digit_string (s : String) (hne : ¬ s = "")
    (hdig : ∀ c ∈ s.toList, c.isDigit = true) :
    parseDecimal s = (digitsToNat s.toList : ℚ) := by
  have hnil : s.toList ≠ [] := by
    intro h
    apply hne
    apply String.ext
    simpa using h
  have hmap := map_swap_of_digits hdig
  have hdots := removeDots_of_no_dot (l := s.toList)
    (fun hc => (isDigit_ne (hdig _ hc)).1 rfl)
  simp only [parseDecimal, hne, if_false, hdots, hmap,
    decNewFromString_digits hnil hdig]

/-! ## Claim C3: derived fields across extraction paths -/

/-- Model response whose stated line-item amount disagrees with its own
quantity and unit price. -/
def C3resp : LLMResponse :=
  { items := [{ quantity := "2", unitPrice := "3", amount := "100" }] }

/-- Claim C3 (corrected): the Response Normalizer hand-sets the derived
fields. Converting a response whose single item states quantity 2, unit
price 3 and amount 100 yields a line item with amount 100, not the
Calculator's 6: the §4.4 consistency invariant does not hold on this path. -/
theorem C3_counterexample :
    ((convertToInvoice C3resp).items.map fun it => it.amount) = [100] ∧
    ((convertToInvoice C3resp).items.map fun it => it.quantity * it.unitPrice)
      = [6] ∧
    (100 : ℚ) ≠ 6 := by
  have h2 : parseDecimal "2" = 2 := by
    rw [parseDecimal_digit_string "2" (by decide) (by decide)]
    norm_num [show digitsToNat ['2'] = 2 from by decide]
  have h3 : parseDecimal "3" = 3 := by
    rw [parseDecimal_digit_string "3" (by decide) (by decide)]
    norm_num [show digitsToNat ['3'] = 3 from by decide]
  have h100 : parseDecimal "100" = 100 := by
    rw [parseDecimal_digit_string "100" (by decide) (by decide)]
    norm_num [show digitsToNat ['1', '0', '0'] = 100 from by decide]
  refine ⟨?_, ?_, by norm_num⟩ <;>
  · simp only [convertToInvoice, C3resp]
    norm_num [h2, h3, h100]

/-- Claim C3 (amended): on the LLM extraction paths the line items of the
converted invoice are exactly the response items passed through the locale
parser — amount, discountAmount, vatAmount and total copied verbatim from
the model's stated values, the Calculator never invoked — so internal
consistency with quantity, unitPrice, discountPercent and vatRate is not
established by the Normalizer. -/
theorem C3_amended (resp : LLMResponse) :
    (convertToInvoice resp).items = resp.items.map (fun item =>
      { number := item.number,
        code := item.code,
        name := item.name,
        description := item.description,
        unit := item.unit,
        quantity := parseDecimal item.quantity,
        unitPrice := parseDecimal item.unitPrice,
        discount := parseDecimal item.discountPercent,
        discountAmt := parseDecimal item.discountAmount,
        amount := parseDecimal item.amount,
        vatAmount := parseDecimal item.vatAmount,
        total := parseDecimal item.total,
        vatRate :=
          if ¬ (parseDecimal item.vatRate = 0) then
            qTrunc (parseDecimal item.vatRate)
          else 0 : LineItem }) := by
  by_cases hcur : resp.currency = "" <;>
    simp [convertToInvoice, hcur]

/-! ## Claim C9: round trip through the Normalizer-compatible rendering

A canonical invoice expressible in the model-response JSON schema is given
with every monetary value as a scaled decimal (an integer over a power of
ten), which is exactly the value set of shopspring decimals; the schema
carries no provider, identifier, exchange rate, payment terms or signature,
so those stay at their zero values on both legs. -/

/-- Scaled decimal: the value num over ten to the scale. -/
structure DNum where
  num : ℤ := 0
  scale : ℕ := 0
deriving DecidableEq

def DNum.val (d : DNum) : ℚ := (d.num : ℚ) / 10 ^ d.scale

def DNum.render (d : DNum) : String := renderDec d.num d.scale

/-- Invoice type as the enumeration of §3. -/
inductive DType where
  | normal
  | replacement
  | adjustment
deriving DecidableEq

def DType.canonical : DType → String
  | .normal => "Normal"
  | .replacement => "Replacement"
  | .adjustment => "Adjustment"

def DType.rendered : DType → String
  | .normal => "normal"
  | .replacement => "replacement"
  | .adjustment => "adjustment"

inductive DDoc where
  | invoice
  | receipt
deriving DecidableEq

def DDoc.canonical : DDoc → String
  | .invoice => "invoice"
  | .receipt => "receipt"

/-- Line item of a schema-expressible canonical invoice. -/
structure DItem where
  number : ℤ := 0
  code : String := ""
  name : String := ""
  description : String := ""
  unit : String := ""
  quantity : DNum := {}
  unitPrice : DNum := {}
  discount : DNum := {}
  vatRate : ℤ := 0
  amount : DNum := {}
  discountAmt : DNum := {}
  vatAmount : DNum := {}
  total : DNum := {}
deriving DecidableEq

/-- Canonical invoice restricted to the Normalizer-compatible schema. -/
structure DInvoice where
  number : String := ""
  series : String := ""
  date : GoDate := {}
  dtype : DType := .normal
  seller : Party := {}
  buyer : Party := {}
  items : List DItem := []
  subtotal : DNum := {}
  tax : DNum := {}
  total : DNum := {}
  currency : String := "VND"
  remarks : String := ""
  paymentMethod : String := ""
  documentType : DDoc := .invoice
  cashier : String := ""
  terminalID : String := ""
  receiptNumber : String := ""
  receiptTime : String := ""
  amountTendered : DNum := {}
  change : DNum := {}
deriving DecidableEq

def DItem.toLineItem (it : DItem) : LineItem :=
  { number := it.number, code := it.code, name := it.name,
    description := it.description, unit := it.unit,
    quantity := it.quantity.val, unitPrice := it.unitPrice.val,
    discount := it.discount.val, vatRate := it.vatRate,
    amount := it.amount.val, discountAmt := it.discountAmt.val,
    vatAmount := it.vatAmount.val, total := it.total.val }

/-- The canonical Invoice a DInvoice denotes. -/
def DInvoice.toInvoice (v : DInvoice) : Invoice :=
  { number := v.number, series := v.series, date := v.date,
    type := v.dtype.canonical, provider := "UNKNOWN",
    seller := v.seller, buyer := v.buyer,
    items := v.items.map DItem.toLineItem,
    subtotalAmount := v.subtotal.val, taxAmount := v.tax.val,
    totalAmount := v.total.val, currency := v.currency,
    remarks := v.remarks, documentType := v.documentType.canonical,
    cashier := v.cashier, terminalID := v.terminalID,
    paymentMethod := v.paymentMethod, receiptNumber := v.receiptNumber,
    receiptTime := v.receiptTime, amountTendered := v.amountTendered.val,
    change := v.change.val }

def pad4 (n : ℕ) : List Char := padLeftZeros 4 (natNumerals n)

def pad2 (n : ℕ) : List Char := padLeftZeros 2 (natNumerals n)

/-- Modelled from the spec: the ISO date rendering of the prompt contract
(YYYY-MM-DD), the format the first time.Parse layout reads back. -/
def renderDate (d : GoDate) : String :=
  String.mk (pad4 d.year ++ ('-' :: pad2 d.month) ++ ('-' :: pad2 d.day))

/-- Modelled from the spec: the Normalizer-compatible JSON line item of a
canonical line item, numeric fields in Vietnamese formatting. -/
def renderItem (it : DItem) : LLMLineItem :=
  { number := it.number, code := it.code, name := it.name,
    description := it.description, unit := it.unit,
    quantity := it.quantity.render, unitPrice := it.unitPrice.render,
    discountPercent := it.discount.render,
    discountAmount := it.discountAmt.render,
    amount := it.amount.render, vatRate := renderDec it.vatRate 0,
    vatAmount := it.vatAmount.render, total := it.total.render }

/-- Modelled from the spec: the Normalizer-compatible JSON document of a
canonical invoice — every schema field populated from the invoice, numeric
fields in Vietnamese formatting, the date in the ISO layout, type and
document type in the prompt's lowercase spelling. -/
def renderResp (v : DInvoice) : LLMResponse :=
  { invoiceNumber := v.number, series := v.series,
    date := renderDate v.date, type := v.dtype.rendered,
    seller :=
      { name := v.seller.name, taxId := v.seller.taxId,
        address := v.seller.address, phone := v.seller.phone,
        email := v.seller.email, bankAccount := v.seller.bankAccount,
        bankName := v.seller.bankName },
    buyer :=
      { name := v.buyer.name, taxId := v.buyer.taxId,
        address := v.buyer.address, phone := v.buyer.phone,
        email := v.buyer.email, bankAccount := v.buyer.bankAccount,
        bankName := v.buyer.bankName },
    items := v.items.map renderItem,
    subtotal := v.subtotal.render, totalDiscount := renderDec 0 0,
    totalVAT := v.tax.render, totalAmount := v.total.render,
    currency := v.currency, paymentMethod := v.paymentMethod,
    notes := v.remarks, documentType := v.documentType.canonical,
    receiptNumber := v.receiptNumber, cashier := v.cashier,
    terminalID := v.terminalID, time := v.receiptTime,
    amountTendered := v.amountTendered.render,
    change := v.change.render }

/-- Valid calendar date with a four-digit year, as every real invoice date
is. -/
def validDate (d : GoDate) : Prop :=
  1 ≤ d.month ∧ d.month ≤ 12 ∧ 1 ≤ d.day ∧
    d.day ≤ daysInMonth d.year d.month ∧ d.year ≤ 9999

theorem list_len4 {α : Type} {l : List α} (h : l.length = 4) :
    ∃ a b c d, l = [a, b, c, d] := by
  rcases l with _ | ⟨a, _ | ⟨b, _ | ⟨c, _ | ⟨d, _ | ⟨e, t⟩⟩⟩⟩⟩
  · simp at h
  · simp at h
  · simp at h
  · simp at h
  · exact ⟨a, b, c, d, rfl⟩
  · simp at h

theorem list_len2 {α : Type} {l : List α} (h : l.length = 2) :
    ∃ a b, l = [a, b] := by
  rcases l with _ | ⟨a, _ | ⟨b, _ | ⟨c, t⟩⟩⟩
  · simp at h
  · simp at h
  · exact ⟨a, b, rfl⟩
  · simp at h

theorem isDigit_not_space {c : Char} (h : c.isDigit = true) :
    isGoSpace c = false := by
  unfold isGoSpace
  simp only [decide_eq_false_iff_not]
  push_neg
  refine ⟨?_, ?_, ?_, ?_, ?_, ?_, ?_, ?_⟩ <;>
    (intro heq; rw [heq] at h; simp at h)

theorem goTrimSpace_id {l : List Char} (h : ∀ c ∈ l, isGoSpace c = false) :
    goTrimSpace l = l := by
  unfold goTrimSpace
  have h1 : l.dropWhile isGoSpace = l := by
    cases l with
    | nil => rfl
    | cons c t =>
      rw [List.dropWhile_cons, h c (by simp)]
      simp
  rw [h1]
  have h2 : l.reverse.dropWhile isGoSpace = l.reverse := by
    cases hrev : l.reverse with
    | nil => rfl
    | cons c t =>
      rw [List.dropWhile_cons,
        h c (by rw [← List.mem_reverse, hrev]; simp)]
      simp
  rw [h2, List.reverse_reverse]

theorem digitsToNat_pad4 (n : ℕ) : digitsToNat (pad4 n) = n := by
  unfold pad4
  rw [digitsToNat_padLeftZeros, digitsToNat_natNumerals]

theorem digitsToNat_pad2 (n : ℕ) : digitsToNat (pad2 n) = n := by
  unfold pad2
  rw [digitsToNat_padLeftZeros, digitsToNat_natNumerals]

theorem pad4_len {n : ℕ} (h : n ≤ 9999) : (pad4 n).length = 4 :=
  padLeftZeros_length (natNumerals_len_le (by omega) (by norm_num))

theorem pad2_len {n : ℕ} (h : n ≤ 99) : (pad2 n).length = 2 :=
  padLeftZeros_length (natNumerals_len_le (by omega) (by norm_num))

theorem pad4_digits (n : ℕ) : ∀ c ∈ pad4 n, c.isDigit = true :=
  padLeftZeros_all_digits (natNumerals_all_digits n)

theorem pad2_digits (n : ℕ) : ∀ c ∈ pad2 n, c.isDigit = true :=
  padLeftZeros_all_digits (natNumerals_all_digits n)

/-- The ISO rendering of a valid date reads back as the same date through
parseDate: the first layout matches. -/
theorem parseDate_renderDate {d : GoDate} (hv : validDate d) :
    parseDate (renderDate d) = some d := by
  obtain ⟨hm1, hm2, hd1, hd2, hy⟩ := hv
  have hmle : d.month ≤ 99 := by
    omega
  have hdle : d.day ≤ 99 := by
    have : daysInMonth d.year d.month ≤ 31 := by
      unfold daysInMonth
      split
      · split <;> omega
      · split <;> omega
    omega
  obtain ⟨y1, y2, y3, y4, hY⟩ := list_len4 (pad4_len hy)
  obtain ⟨m1, m2, hM⟩ := list_len2 (pad2_len hmle)
  obtain ⟨e1, e2, hD⟩ := list_len2 (pad2_len hdle)
  have hYd : ∀ c ∈ [y1, y2, y3, y4], c.isDigit = true := by
    rw [← hY]; exact pad4_digits d.year
  have hMd : ∀ c ∈ [m1, m2], c.isDigit = true := by
    rw [← hM]; exact pad2_digits d.month
  have hDd : ∀ c ∈ [e1, e2], c.isDigit = true := by
    rw [← hD]; exact pad2_digits d.day
  have htoList : (renderDate d).toList =
      [y1, y2, y3, y4, '-', m1, m2, '-', e1, e2] := by
    show pad4 d.year ++ ('-' :: pad2 d.month) ++ ('-' :: pad2 d.day) = _
    rw [hY, hM, hD]
    rfl
  have htrim : goTrimSpace (renderDate d).toList =
      [y1, y2, y3, y4, '-', m1, m2, '-', e1, e2] := by
    rw [htoList]
    apply goTrimSpace_id
    intro c hc
    simp only [List.mem_cons, List.not_mem_nil, or_false] at hc
    rcases hc with h | h | h | h | h | h | h | h | h | h <;> subst h
    · exact isDigit_not_space (hYd _ (by simp))
    · exact isDigit_not_space (hYd _ (by simp))
    · exact isDigit_not_space (hYd _ (by simp))
    · exact isDigit_not_space (hYd _ (by simp))
    · decide
    · exact isDigit_not_space (hMd _ (by simp))
    · exact isDigit_not_space (hMd _ (by simp))
    · decide
    · exact isDigit_not_space (hDd _ (by simp))
    · exact isDigit_not_space (hDd _ (by simp))
  have hymd : parseYMD [y1, y2, y3, y4, '-', m1, m2, '-', e1, e2]
      = some d := by
    simp only [parseYMD]
    rw [if_pos]
    · have hyv : digitsToNat [y1, y2, y3, y4] = d.year := by
        rw [← hY]; exact digitsToNat_pad4 d.year
      have hmv : digitsToNat [m1, m2] = d.month := by
        rw [← hM]; exact digitsToNat_pad2 d.month
      have hdv : digitsToNat [e1, e2] = d.day := by
        rw [← hD]; exact digitsToNat_pad2 d.day
      rw [hyv, hmv, hdv]
      unfold mkDate
      rw [if_pos ⟨hm1, hm2, hd1, hd2⟩]
    · refine ⟨by trivial, by trivial, ?_⟩
      rw [List.all_eq_true]
      intro c hc
      simp only [List.mem_cons, List.not_mem_nil, or_false] at hc
      rcases hc with h | h | h | h | h | h | h | h <;> subst h
      · exact hYd _ (by simp)
      · exact hYd _ (by simp)
      · exact hYd _ (by simp)
      · exact hYd _ (by simp)
      · exact hMd _ (by simp)
      · exact hMd _ (by simp)
      · exact hDd _ (by simp)
      · exact hDd _ (by simp)
  simp only [parseDate]
  rw [htrim, hymd]

/-- The lowercase type spelling of the prompt contract reads back as the
canonical constant. -/
theorem parseInvoiceType_rendered (t : DType) :
    parseInvoiceType t.rendered = t.canonical := by
  cases t <;> decide

/-- Document type round trips (the canonical constants are already the
wire spellings). -/
theorem parseDocumentType_canonical (dt : DDoc) :
    parseDocumentType dt.canonical = dt.canonical := by
  cases dt <;> decide

theorem qTrunc_intCast (r : ℤ) : qTrunc ((r : ℤ) : ℚ) = r := by
  unfold qTrunc
  rw [Rat.num_intCast, Rat.den_intCast]
  simp [Int.tdiv_one]

/-- The VAT-rate rule of convertToInvoice (only nonzero parsed rates
overwrite the zero default) recovers the original integer rate. -/
theorem vatRate_roundTrip (r : ℤ) :
    (if ¬ (parseDecimal (renderDec r 0) = 0) then
      qTrunc (parseDecimal (renderDec r 0)) else 0) = r := by
  rw [parseDecimal_renderDec r 0]
  simp only [pow_zero, div_one]
  by_cases hr : r = 0
  · subst hr
    simp
  · rw [if_pos (by exact_mod_cast hr), qTrunc_intCast]

theorem parseDecimal_DNum (d : DNum) : parseDecimal d.render = d.val :=
  parseDecimal_renderDec d.num d.scale

/-- What the Normalizer actually restores: the denoted invoice with the
buyer's bank account and bank name emptied (convertToInvoice drops them). -/
def C9Expected (v : DInvoice) : Invoice :=
  { v.toInvoice with
    buyer := { v.buyer with bankAccount := "", bankName := "" } }

/-- Claim C9 (amended): for every schema-expressible canonical invoice with
a non-empty currency, a valid date, and a number that is non-empty unless
the receipt number is empty too, rendering to Normalizer-compatible JSON
with Vietnamese numeric formatting and converting back restores every
schema field EXCEPT the buyer's bank account and bank name, which come back
empty because convertToInvoice copies only five buyer fields. -/
theorem C9_amended (v : DInvoice) (hcur : ¬ v.currency = "")
    (hnum : ¬ v.number = "" ∨ v.receiptNumber = "")
    (hdate : validDate v.date) :
    convertToInvoice (renderResp v) = C9Expected v := by
  have hdocnum : (if v.number = "" then v.receiptNumber else v.number)
      = v.number := by
    by_cases h : v.number = ""
    · rcases hnum with h1 | h1
      · exact absurd h h1
      · rw [if_pos h, h1, h]
    · rw [if_neg h]
  have hdatene : ¬ (renderDate v.date = "") := by
    intro hc
    have h0 : pad4 v.date.year ++ ('-' :: pad2 v.date.month) ++
        ('-' :: pad2 v.date.day) = [] := congrArg String.toList hc
    simp [List.append_eq_nil] at h0
  simp only [convertToInvoice, renderResp]
  rw [if_neg hcur]
  unfold C9Expected DInvoice.toInvoice
  simp only [Invoice.mk.injEq]
  repeat' apply And.intro
  all_goals
    first
      | trivial
      | exact hdocnum
      | (rw [if_pos hdatene, parseDate_renderDate hdate])
      | exact parseInvoiceType_rendered v.dtype
      | exact parseDocumentType_canonical v.documentType
      | exact parseDecimal_DNum v.subtotal
      | exact parseDecimal_DNum v.tax
      | exact parseDecimal_DNum v.total
      | exact parseDecimal_DNum v.amountTendered
      | exact parseDecimal_DNum v.change
      | (rw [List.map_map]
         apply List.map_congr_left
         intro it hmem
         simp only [Function.comp_apply, renderItem, DItem.toLineItem,
           LineItem.mk.injEq]
         repeat' apply And.intro
         all_goals
           first
             | trivial
             | exact parseDecimal_DNum it.quantity
             | exact parseDecimal_DNum it.unitPrice
             | exact parseDecimal_DNum it.discount
             | exact vatRate_roundTrip it.vatRate
             | exact parseDecimal_DNum it.amount
             | exact parseDecimal_DNum it.discountAmt
             | exact parseDecimal_DNum it.vatAmount
             | exact parseDecimal_DNum it.total)

/-- Witness for C9_amended at the default canonical invoice. -/
theorem C9_amended_witness :
    convertToInvoice (renderResp {}) = C9Expected {} :=
  C9_amended {} (by decide) (Or.inr rfl)
    (by refine ⟨?_, ?_, ?_, ?_, ?_⟩ <;> norm_num [daysInMonth])

/-- Canonical invoice whose buyer carries a bank account number. -/
def C9bad : DInvoice := { buyer := { bankAccount := "B123" } }

/-- Claim C9 (corrected): the round trip does NOT restore the buyer's bank
account (or bank name): convertToInvoice builds the buyer from five fields
only (extractor.go 206-212), so a canonical invoice with buyer bank account
B123 comes back with the field empty. -/
theorem C9_counterexample :
    (convertToInvoice (renderResp C9bad)).buyer.bankAccount = "" ∧
    (C9bad.toInvoice).buyer.bankAccount = "B123" ∧
    ("" : String) ≠ "B123" :=
  ⟨rfl, rfl, by decide⟩

end InvSpec
